import Mathlib

/-!
# Verification of the optionsTrader broker-ingestion and strategy-execution pipeline

A shallow embedding of the core pipeline of the `optionsTrader` repository:

* `trading/strategies/execution_mapping.py` — mapping `PlannedAction` to `ExecutionIntent`
* `trading/strategies/safety.py`            — the safety-limit filter
* `trading/strategies/executor.py`          — `run_strategy_instance` control flow
* `trading/strategies/registry.py`          — `validate_config_against_schema`
* `trading/strategies/orchestration.py`     — `run_all_enabled_strategies`
* `trading/ingestion/*.py`                  — the five ingestion sync jobs

Python `Decimal` values are modelled as `ℚ`, timestamps as `ℤ`, dictionaries of
strategy parameters as association lists of a small Python-value type, and the
relational store as explicit lists of rows threaded through each sync job.
Exceptions are modelled with `Except`.
-/

namespace OptionsTrader

/-! ## Python parameter values

Strategy-action parameter dictionaries (`PlannedAction.params`) hold strings,
numbers, or `None`.  `PVal.null` models a key that is present with value
`None`; a key that is absent simply has no entry in the association list. -/

inductive PVal where
  | num (q : ℚ)
  | str (s : String)
  | null
deriving DecidableEq

abbrev Params := List (String × PVal)

/-- `params.get(k)` — first binding wins, `none` when the key is absent. -/
def pget (p : Params) (k : String) : Option PVal :=
  (p.find? (fun kv => kv.1 == k)).map (fun kv => kv.2)

/-- Python truthiness of a parameter value (`None`, `""` and `0` are falsy). -/
def pvalTruthy : PVal → Bool
  | PVal.num q => q != 0
  | PVal.str s => s != ""
  | PVal.null => false

/-- `key in params and params[key] not in (None, "")` for an already-looked-up
value: the value exists and is neither `None` nor the empty string. -/
def pvalPresent : Option PVal → Bool
  | some PVal.null => false
  | some (PVal.str s) => s != ""
  | some (PVal.num _) => true
  | none => false

/-! ## Decimal / int conversions (`Decimal(str(v))`, `int(v)`) -/

def allDigits (cs : List Char) : Bool := cs.all Char.isDigit

def digitsToNat (cs : List Char) : Nat :=
  cs.foldl (fun acc c => acc * 10 + (c.toNat - 48)) 0

/-- Parse a plain signed decimal numeral such as `"2.50"`, `"-3"`, `".5"`.
Returns `none` where Python `Decimal(...)` would raise `InvalidOperation`. -/
def parseDecimalString (s : String) : Option ℚ :=
  let cs := s.toList
  let signBody : Bool × List Char :=
    match cs with
    | '-' :: rest => (true, rest)
    | '+' :: rest => (false, rest)
    | other => (false, other)
  let body := signBody.2
  let intPart := body.takeWhile (fun c => c != '.')
  let dotRest := body.dropWhile (fun c => c != '.')
  let fracPart : Option (List Char) :=
    match dotRest with
    | [] => some []
    | _ :: tl => if tl.any (fun c => c == '.') then none else some tl
  match fracPart with
  | none => none
  | some frac =>
    if allDigits intPart && allDigits frac && (!intPart.isEmpty || !frac.isEmpty) then
      let mag : ℚ := (digitsToNat intPart : ℚ) + (digitsToNat frac : ℚ) / ((10 : ℚ) ^ frac.length)
      some (if signBody.1 then -mag else mag)
    else none

/-- Parse an integer literal, as accepted by Python `int(str)`. -/
def parseIntString (s : String) : Option ℤ :=
  match s.toList with
  | '-' :: rest =>
    if !rest.isEmpty && allDigits rest then some (-(digitsToNat rest : ℤ)) else none
  | '+' :: rest =>
    if !rest.isEmpty && allDigits rest then some ((digitsToNat rest : ℤ)) else none
  | cs =>
    if !cs.isEmpty && allDigits cs then some ((digitsToNat cs : ℤ)) else none

/-- Truncation toward zero, as in Python `int(Decimal(...))`. -/
def truncRat (q : ℚ) : ℤ := q.num.tdiv (q.den : ℤ)

/-- `Decimal(str(v))` on a parameter value; `none` models `InvalidOperation`
(note `str(None) = "None"` does not parse). -/
def pvalToDecimal : PVal → Option ℚ
  | PVal.num q => some q
  | PVal.str s => parseDecimalString s
  | PVal.null => none

/-- `int(v)` on a parameter value; `none` models `ValueError`/`TypeError`. -/
def pvalToInt : PVal → Option ℤ
  | PVal.num q => some (truncRat q)
  | PVal.str s => parseIntString s
  | PVal.null => none

/-! ## Execution-intent mapping (`execution_mapping.py`) -/

/-- The exceptions that can escape `map_planned_action_to_execution_intent`. -/
inductive MapExc where
  | mappingError (msg : String)
  /-- `decimal.InvalidOperation` from `Decimal(str(v))` on an unparsable string. -/
  | invalidOperation
  /-- `ValueError` from `int(raw_con_id)` on an unparsable string. -/
  | valueError
  /-- `AttributeError` from `.upper()` applied to a non-string value. -/
  | attributeError
deriving DecidableEq

structure BrokerAccountRef where
  account_code : String
deriving DecidableEq

/-- The slice of a strategy context the mapper and executor duck-type on. -/
structure StrategyContextM where
  broker_account : Option BrokerAccountRef
deriving DecidableEq

structure IbkrConRef where
  con_id : Option ℤ
deriving DecidableEq

/-- `trading.strategies.base.PlannedAction` (underlier kept as a bare symbol). -/
structure PlannedAction where
  underlier : Option String := none
  action : String
  params : Params := []
  ibkr_con : Option IbkrConRef := none
  confidence : ℚ := 0
  rationale : String := ""
  plan_id : Option String := none
deriving DecidableEq

structure ExecutionIntent where
  broker_account_code : String
  con_id : Option ℤ
  side : String
  order_type : String
  quantity : ℚ
  limit_price : Option ℚ
  tif : String
  action : String
  plan_id : Option String
  notes : String
  raw_params : Params
deriving DecidableEq

def EXECUTABLE_ACTIONS : List String :=
  ["sell_put", "sell_call", "buy_to_close", "sell_to_close", "buy_shares", "sell_shares"]

/-- `_extract_decimal(params, *keys, required=...)`. -/
def extractDecimal (params : Params) (keys : List String) (required : Bool) :
    Except MapExc ℚ :=
  match keys with
  | [] =>
    if required then Except.error (MapExc.mappingError "Missing required numeric parameter")
    else Except.ok 0
  | k :: rest =>
    if pvalPresent (pget params k) then
      match pget params k with
      | some v =>
        match pvalToDecimal v with
        | some q => Except.ok q
        | none => Except.error MapExc.invalidOperation
      | none => Except.error MapExc.invalidOperation
    else extractDecimal params rest required

def sideMap (a : String) : Option String :=
  if a == "sell_put" then some "SELL"
  else if a == "sell_call" then some "SELL"
  else if a == "sell_shares" then some "SELL"
  else if a == "sell_to_close" then some "SELL"
  else if a == "buy_to_close" then some "BUY"
  else if a == "buy_shares" then some "BUY"
  else none

/-- `str.upper()` (ASCII, which covers every string the pipeline produces). -/
def strUpper (s : String) : String := String.mk (s.data.map Char.toUpper)

/-- `.upper()` on a value that reached `ExecutionIntent.__post_init__` or the
`tif` computation; non-strings raise `AttributeError`. -/
def pvalUpper : PVal → Except MapExc String
  | PVal.str s => Except.ok (strUpper s)
  | _ => Except.error MapExc.attributeError

/-- `limit_price = Decimal(str(params["limit_price"])) if present else None`. -/
def limitPriceOf (params : Params) : Except MapExc (Option ℚ) :=
  if pvalPresent (pget params "limit_price") then
    match (pget params "limit_price").bind pvalToDecimal with
    | some q => Except.ok (some q)
    | none => Except.error MapExc.invalidOperation
  else Except.ok none

/-- `tif = (params.get("tif") or "DAY").upper()` — upper-cased right away. -/
def tifOf (params : Params) : Except MapExc String :=
  match pget params "tif" with
  | some v => if pvalTruthy v then pvalUpper v else Except.ok "DAY"
  | none => Except.ok "DAY"

/-- `order_type = params.get("order_type")` defaulted when falsy; the raw value
is only `.upper()`-ed later, inside the `ExecutionIntent` constructor. -/
def orderTypeRawOf (params : Params) (limit_price : Option ℚ) : PVal :=
  match pget params "order_type" with
  | some v =>
    if pvalTruthy v then v else PVal.str (if limit_price.isSome then "LMT" else "MKT")
  | none => PVal.str (if limit_price.isSome then "LMT" else "MKT")

/-- `con_id`: prefer `action.ibkr_con.con_id`, fall back to `int(params["con_id"])`
when that key holds a non-`None` value. -/
def conIdOf (action : PlannedAction) : Except MapExc (Option ℤ) :=
  let fromRef : Option ℤ :=
    match action.ibkr_con with
    | some r => r.con_id
    | none => none
  match fromRef with
  | some c => Except.ok (some c)
  | none =>
    match pget action.params "con_id" with
    | some PVal.null => Except.ok none
    | some v =>
      match pvalToInt v with
      | some i => Except.ok (some i)
      | none => Except.error MapExc.valueError
    | none => Except.ok none

/-- `map_planned_action_to_execution_intent(action, context)`. -/
def mapPlannedActionToExecutionIntent (action : PlannedAction)
    (context : StrategyContextM) : Except MapExc ExecutionIntent :=
  if action.action ∉ EXECUTABLE_ACTIONS then
    Except.error (MapExc.mappingError ("Non-executable or unsupported action: " ++ action.action))
  else
    match context.broker_account with
    | none =>
      Except.error (MapExc.mappingError "Strategy context is missing broker_account.account_code")
    | some account =>
      if account.account_code == "" then
        Except.error (MapExc.mappingError "Strategy context is missing broker_account.account_code")
      else
        let params := action.params
        match extractDecimal params ["qty", "quantity"] true with
        | Except.error e => Except.error e
        | Except.ok quantity =>
          if quantity ≤ 0 then
            Except.error (MapExc.mappingError "ExecutionIntent requires positive quantity")
          else
            match limitPriceOf params with
            | Except.error e => Except.error e
            | Except.ok limit_price =>
              match tifOf params with
              | Except.error e => Except.error e
              | Except.ok tif =>
                match conIdOf action with
                | Except.error e => Except.error e
                | Except.ok none =>
                  Except.error
                    (MapExc.mappingError "Executable actions must carry an ibkr_con or con_id")
                | Except.ok (some cid) =>
                  match sideMap action.action with
                  | none =>
                    Except.error (MapExc.mappingError
                      ("Could not determine side from action: " ++ action.action))
                  | some side =>
                    -- `ExecutionIntent.__post_init__` upper-cases the three fields.
                    match pvalUpper (orderTypeRawOf params limit_price) with
                    | Except.error e => Except.error e
                    | Except.ok order_type =>
                      Except.ok {
                        broker_account_code := account.account_code
                        con_id := some cid
                        side := strUpper side
                        order_type := order_type
                        quantity := quantity
                        limit_price := limit_price
                        tif := strUpper tif
                        action := action.action
                        plan_id := action.plan_id
                        notes := action.rationale
                        raw_params := params }

/-! ## Safety-limit filter (`safety.py`) -/

structure SafetyLimits where
  max_recommendations : Nat := 50
  max_per_plan : Nat := 10
  max_total_notional : ℚ := (10 : ℚ) ^ 9
deriving DecidableEq

/-- `act.plan_id or f"singleton:{id(act)}"`: a falsy plan id (absent or the
empty string) puts the action in its own singleton group. -/
def planKey (a : PlannedAction) : Option String :=
  match a.plan_id with
  | some p => if p == "" then none else some p
  | none => none

/-- One step of the `grouped.setdefault(key, []).append(act)` loop; `none`
keys stand for the per-object singleton keys, which never collide. -/
def insertIntoGroups (groups : List (Option String × List PlannedAction))
    (a : PlannedAction) : List (Option String × List PlannedAction) :=
  match planKey a with
  | none => groups ++ [(none, [a])]
  | some p =>
    if groups.any (fun g => g.1 == some p) then
      groups.map (fun g => if g.1 == some p then (g.1, g.2 ++ [a]) else g)
    else groups ++ [(some p, [a])]

/-- Group actions by plan id in first-encounter order (a Python dict preserves
insertion order). -/
def groupByPlan (actions : List PlannedAction) : List (Option String × List PlannedAction) :=
  actions.foldl insertIntoGroups []

/-- Best-effort `Decimal(str(act.params.get("notional")))`, with both a missing
key and an unparsable value contributing nothing. -/
def notionalOf (a : PlannedAction) : ℚ :=
  match pget a.params "notional" with
  | some v => (pvalToDecimal v).getD 0
  | none => 0

structure SafetyStats where
  original_count : Nat
  grouped_plans : Nat
  filtered_count : Nat
  max_recommendations : Nat
  max_per_plan : Nat
  total_notional : ℚ
deriving DecidableEq

/-- `apply_safety_limits(actions, limits)`: truncate each plan-group to
`max_per_plan`, concatenate groups in encounter order, cap the whole list at
`max_recommendations`, accumulating notional over the per-plan-truncated
actions. -/
def applySafetyLimits (actions : List PlannedAction) (limits : SafetyLimits) :
    List PlannedAction × SafetyStats :=
  let grouped := groupByPlan actions
  let kept := grouped.foldl (fun acc g => acc ++ g.2.take limits.max_per_plan) []
  let filtered := kept.take limits.max_recommendations
  let total_notional := (kept.map notionalOf).sum
  (filtered,
    { original_count := actions.length
      grouped_plans := grouped.length
      filtered_count := filtered.length
      max_recommendations := limits.max_recommendations
      max_per_plan := limits.max_per_plan
      total_notional := total_notional })

/-! ## Strategy executor (`executor.py`) -/

/-- The two pluggable implementation shapes `run_strategy_instance` accepts:
a `BaseStrategy` subclass (an object constructed once per instance whose
`run(context)` is invoked) or a bare callable `impl(context=..., instance=...)`.
Either entrypoint may raise, modelled with `Except`. -/
inductive StrategyImpl where
  | classBased (run : StrategyContextM → Except String (List PlannedAction))
  | callableImpl (f : StrategyContextM → Except String (List PlannedAction))

/-- The strategy-instance state the executor reads: the resolved implementation
and `instance.config["safety"]` (already shaped into limits; `none` means the
key is absent, so all three defaults apply). -/
structure StrategyInstanceModel where
  impl : StrategyImpl
  safety : Option SafetyLimits

def safetyLimitsOf (inst : StrategyInstanceModel) : SafetyLimits :=
  match inst.safety with
  | some s => s
  | none => { max_recommendations := 50, max_per_plan := 10, max_total_notional := (10 : ℚ) ^ 9 }

/-- The `StrategyRun` row as the executor leaves it. -/
structure StrategyRunRec where
  status : String
  stats_num_actions : Option Nat
  error_message : String
  error_trace : String
deriving DecidableEq

/-- What one `run_strategy_instance` call leaves behind: its return value or
re-raised exception, the terminal `StrategyRun` row, and the actions persisted
as `Recommendation` rows (empty when persistence was off or nothing survived). -/
structure RunOutcome where
  result : Except String (List PlannedAction)
  run : StrategyRunRec
  persisted : List PlannedAction

def implEval : StrategyImpl → StrategyContextM → Except String (List PlannedAction)
  | StrategyImpl.classBased r, c => r c
  | StrategyImpl.callableImpl f, c => f c

/-- `run_strategy_instance(instance, asof_ts, persist_recommendations)`.

`buildCtx` stands for `build_strategy_context(instance, asof_ts)`, which can
itself raise.  In the class-based branch the safety filter is applied and its
output persisted; in the callable branch `actions_after_safety = actions` and
the collected actions are persisted unfiltered.  The function returns the
pre-safety `actions` list; on any exception the run row is moved to `"error"`
with the captured trace and the exception is re-raised. -/
def runStrategyInstance (inst : StrategyInstanceModel)
    (buildCtx : Except String StrategyContextM)
    (persist_recommendations : Bool) : RunOutcome :=
  let step : Except String (List PlannedAction × List PlannedAction) :=
    match inst.impl with
    | StrategyImpl.classBased runf =>
      match buildCtx with
      | Except.error e => Except.error e
      | Except.ok context =>
        match runf context with
        | Except.error e => Except.error e
        | Except.ok actions =>
          Except.ok (actions, (applySafetyLimits actions (safetyLimitsOf inst)).1)
    | StrategyImpl.callableImpl f =>
      match buildCtx with
      | Except.error e => Except.error e
      | Except.ok context =>
        match f context with
        | Except.error e => Except.error e
        | Except.ok actions => Except.ok (actions, actions)
  match step with
  | Except.ok res =>
    let actions := res.1
    let effective_actions := res.2
    let persisted :=
      if persist_recommendations && !effective_actions.isEmpty then effective_actions else []
    { result := Except.ok actions
      run := { status := "ok", stats_num_actions := some actions.length
               error_message := "", error_trace := "" }
      persisted := persisted }
  | Except.error msg =>
    { result := Except.error msg
      run := { status := "error", stats_num_actions := none
               error_message := msg
               error_trace := "Traceback (most recent call last): " ++ msg }
      persisted := [] }

/-! ## Engine orchestration (`orchestration.py`) -/

structure InstanceSummary where
  status : String
  num_actions : Nat
deriving DecidableEq

/-- `run_all_enabled_strategies`: iterate the enabled instances calling
`run_strategy_instance`; there is no per-instance exception handling, so a
raising instance propagates out of the loop. -/
def runAllEnabledStrategies
    (instances : List (StrategyInstanceModel × Except String StrategyContextM))
    (dry_run : Bool) : Except String (List InstanceSummary) :=
  match instances with
  | [] => Except.ok []
  | (inst, ctx) :: rest =>
    let out := runStrategyInstance inst ctx (!dry_run)
    match out.result with
    | Except.error msg => Except.error msg
    | Except.ok actions =>
      match runAllEnabledStrategies rest dry_run with
      | Except.error msg => Except.error msg
      | Except.ok sums =>
        Except.ok ({ status := out.run.status, num_actions := actions.length } :: sums)

/-! ## Config-schema validation (`registry.py`) -/

/-- The Python values a strategy-instance config may hold; `vbool` is kept
distinct from `vint` even though Python `bool` is a subclass of `int` — the
subclassing shows up in the `isinstance` models below. -/
inductive PyVal where
  | vstr (s : String)
  | vbool (b : Bool)
  | vint (n : ℤ)
  | vfloat (q : ℚ)
  | vlist (n : Nat)
deriving DecidableEq

abbrev Config := List (String × PyVal)

/-- `isinstance(value, str)`. -/
def pyIsStr : PyVal → Bool
  | PyVal.vstr _ => true
  | _ => false

/-- `isinstance(value, bool)`. -/
def pyIsBool : PyVal → Bool
  | PyVal.vbool _ => true
  | _ => false

/-- `isinstance(value, (int, float))` — Python `bool` is a subclass of `int`,
so booleans satisfy this check. -/
def pyIsNumber : PyVal → Bool
  | PyVal.vint _ => true
  | PyVal.vfloat _ => true
  | PyVal.vbool _ => true
  | _ => false

/-- `isinstance(value, int)` — again satisfied by booleans. -/
def pyIsInt : PyVal → Bool
  | PyVal.vint _ => true
  | PyVal.vbool _ => true
  | _ => false

/-- `isinstance(value, list)`. -/
def pyIsList : PyVal → Bool
  | PyVal.vlist _ => true
  | _ => false

/-- The JSON-schema subset `validate_config_against_schema` consumes: a `type`
key, per-property declared types, `required`, and `additionalProperties`
(defaulting to `True`). -/
structure Schema where
  type : Option String := none
  properties : List (String × Option String) := []
  required : List String := []
  additionalProperties : Bool := true

def lookupProp (props : List (String × Option String)) (name : String) :
    Option (Option String) :=
  (props.find? (fun kv => kv.1 == name)).map (fun kv => kv.2)

def typeName : PyVal → String
  | PyVal.vstr _ => "str"
  | PyVal.vbool _ => "bool"
  | PyVal.vint _ => "int"
  | PyVal.vfloat _ => "float"
  | PyVal.vlist _ => "list"

/-- The per-item body of the `for name, value in config.items()` loop. -/
def propErrors (schema : Schema) (name : String) (value : PyVal) : List String :=
  match lookupProp schema.properties name with
  | none =>
    if schema.additionalProperties == false then ["Unexpected field " ++ name] else []
  | some declared =>
    match declared with
    | none => []
    | some t =>
      if t == "string" && !pyIsStr value then
        ["Field " ++ name ++ " expected string, got " ++ typeName value]
      else if t == "boolean" && !pyIsBool value then
        ["Field " ++ name ++ " expected boolean, got " ++ typeName value]
      else if t == "number" && !pyIsNumber value then
        ["Field " ++ name ++ " expected number, got " ++ typeName value]
      else if t == "integer" && !pyIsInt value then
        ["Field " ++ name ++ " expected integer, got " ++ typeName value]
      else if t == "array" && !pyIsList value then
        ["Field " ++ name ++ " expected array, got " ++ typeName value]
      else []

/-- `validate_config_against_schema(config, schema)` for dict configs: an empty
or non-`object` schema validates everything; otherwise report missing required
fields followed by per-key type errors in config order. -/
def validateConfigAgainstSchema (config : Config) (schema : Schema) : List String :=
  if schema.type != some "object" then []
  else
    (schema.required.filter (fun f => !(config.any (fun kv => kv.1 == f)))).map
        (fun f => "Missing required field " ++ f)
      ++ config.foldr (fun kv acc => propErrors schema kv.1 kv.2 ++ acc) []

/-! ## Normalized broker data (`trading/brokers/types.py`) -/

structure AccountSnapshotData where
  broker_account_code : String
  currency : String
  asof_ts : ℤ
  cash : ℚ
  buying_power : ℚ
  maintenance_margin : ℚ
  used_margin : ℚ
  extras : Params
deriving DecidableEq

structure PositionData where
  broker_account_code : String
  symbol : String
  exchange : Option String
  asset_type : String
  currency : String
  con_id : Option ℤ
  qty : ℚ
  avg_cost : ℚ
  market_price : ℚ
  market_value : ℚ
  asof_ts : ℤ
  raw : Params
deriving DecidableEq

structure OrderData where
  broker_account_code : String
  symbol : String
  con_id : Option ℤ
  ibkr_order_id : ℤ
  parent_ibkr_order_id : Option ℤ
  side : String
  order_type : String
  limit_price : Option ℚ
  aux_price : Option ℚ
  tif : String
  status : String
  created_ts : ℤ
  updated_ts : ℤ
  raw : Params
deriving DecidableEq

structure ExecutionData where
  broker_account_code : String
  symbol : String
  con_id : Option ℤ
  ibkr_exec_id : String
  ibkr_order_id : Option ℤ
  fill_ts : ℤ
  qty : ℚ
  price : ℚ
  fee : ℚ
  venue : String
  raw : Params
deriving DecidableEq

structure OptionEventData where
  broker_account_code : String
  symbol : String
  con_id : Option ℤ
  event_type : String
  event_ts : ℤ
  qty : ℚ
  notes : String
  raw : Params
deriving DecidableEq

/-- The canned output of one broker client (`InMemoryTestBroker`-style): each
`fetch_*` operation echoes the corresponding list back verbatim, so re-running
a sync against the same client replays identical data. -/
structure BrokerOutput where
  account_snapshots : List AccountSnapshotData := []
  positions : List PositionData := []
  open_orders : List OrderData := []
  executions : List ExecutionData := []
  option_events : List OptionEventData := []
deriving DecidableEq

/-! ## Relational store rows (`portfolio/models.py`, `accounts/models.py`)

Rows carry a synthetic primary key drawn from `Db.nextId`; foreign keys are
stored as row ids, broker accounts as their account-code string. -/

structure InstrumentRow where
  id : Nat
  symbol : String
  exchange : String
  asset_type : String
  currency : String
deriving DecidableEq

structure IbkrContractRow where
  id : Nat
  con_id : ℤ
  instrument_id : Nat
  sec_type : String
  exchange : String
  currency : String
  local_symbol : PVal
  last_trade_date_or_contract_month : PVal
  strike : Option PVal
  rightCP : String
  multiplier : Option PVal
  metadata : Params
deriving DecidableEq

structure PositionRow where
  id : Nat
  portfolio_id : Nat
  broker_account : String
  instrument_id : Nat
  ibkr_con_id : Option Nat
  qty : ℚ
  avg_cost : ℚ
  market_price : ℚ
  market_value : ℚ
  asof_ts : ℤ
deriving DecidableEq

structure OrderRow where
  id : Nat
  broker_account : String
  ibkr_order_id : ℤ
  ibkr_con_id : Option Nat
  side : String
  order_type : String
  limit_price : Option ℚ
  aux_price : Option ℚ
  tif : String
  status : String
  created_ts : ℤ
  updated_ts : ℤ
  raw : Params
deriving DecidableEq

structure ExecutionRow where
  id : Nat
  order_id : Nat
  ibkr_exec_id : String
  fill_ts : ℤ
  qty : ℚ
  price : ℚ
  fee : ℚ
  venue : String
  raw : Params
deriving DecidableEq

structure OptionEventRow where
  id : Nat
  broker_account : String
  ibkr_con_id : Option Nat
  event_type : String
  event_ts : ℤ
  qty : ℚ
  notes : String
deriving DecidableEq

structure SnapshotRow where
  id : Nat
  broker_account : String
  asof_ts : ℤ
  currency : String
  cash : ℚ
  buying_power : ℚ
  maintenance_margin : ℚ
  used_margin : ℚ
  extras : Params
deriving DecidableEq

structure Db where
  nextId : Nat := 0
  instruments : List InstrumentRow := []
  contracts : List IbkrContractRow := []
  positions : List PositionRow := []
  orders : List OrderRow := []
  executions : List ExecutionRow := []
  optionEvents : List OptionEventRow := []
  snapshots : List SnapshotRow := []
deriving DecidableEq

/-! ## Position sync (`positions_sync.py`) -/

/-- `Instrument.objects.get_or_create(symbol=..., exchange=..., asset_type=...,
currency=...)` key lookup. -/
def findInstrument (db : Db) (symbol exchange asset_type currency : String) :
    Option InstrumentRow :=
  db.instruments.find? (fun r =>
    r.symbol == symbol && r.exchange == exchange &&
    r.asset_type == asset_type && r.currency == currency)

def findContractByConId (contracts : List IbkrContractRow) (con_id : ℤ) :
    Option IbkrContractRow :=
  contracts.find? (fun r => r.con_id == con_id)

/-- `Instrument.objects.get_or_create(...)` keyed on
(symbol, exchange-or-"", asset_type, currency). -/
def getOrCreateInstrument (db : Db) (pd : PositionData) : InstrumentRow × Db :=
  match findInstrument db pd.symbol (pd.exchange.getD "") pd.asset_type pd.currency with
  | some r => (r, db)
  | none =>
    let r : InstrumentRow :=
      { id := db.nextId, symbol := pd.symbol, exchange := pd.exchange.getD ""
        asset_type := pd.asset_type, currency := pd.currency }
    (r, { db with nextId := db.nextId + 1, instruments := db.instruments ++ [r] })

/-- `IbkrContract.objects.get_or_create(con_id=..., defaults=...)` plus the
instrument realignment of an existing contract pointing elsewhere; a missing
`con_id` resolves to no contract at all. -/
def getOrCreateContractFor (db : Db) (pd : PositionData)
    (instrument : InstrumentRow) : Option Nat × Db :=
  match pd.con_id with
  | none => (none, db)
  | some cid =>
    match findContractByConId db.contracts cid with
    | some existing =>
      if existing.instrument_id != instrument.id then
        (some existing.id,
          { db with contracts := db.contracts.map (fun r =>
              if r.id == existing.id then { r with instrument_id := instrument.id }
              else r) })
      else (some existing.id, db)
    | none =>
      let r : IbkrContractRow :=
        { id := db.nextId, con_id := cid, instrument_id := instrument.id
          sec_type := if pd.asset_type == "equity" then "STK" else "OPT"
          exchange := pd.exchange.getD "", currency := pd.currency
          local_symbol := (pget pd.raw "local_symbol").getD (PVal.str "")
          last_trade_date_or_contract_month :=
            (pget pd.raw "last_trade_date_or_contract_month").getD (PVal.str "")
          strike := pget pd.raw "strike"
          rightCP :=
            match pget pd.raw "right" with
            | some (PVal.str s) => s
            | _ => ""
          multiplier := pget pd.raw "multiplier"
          metadata := pd.raw }
      (some r.id, { db with nextId := db.nextId + 1, contracts := db.contracts ++ [r] })

/-- `get_or_create_instrument_and_contract(pos_data)`: resolve-or-create the
`Instrument`, then resolve-or-create the `IbkrContract` when a `con_id` is
present. -/
def getOrCreateInstrumentAndContract (db : Db) (pd : PositionData) :
    (Nat × Option Nat) × Db :=
  let instRes := getOrCreateInstrument db pd
  let conRes := getOrCreateContractFor instRes.2 pd instRes.1
  ((instRes.1.id, conRes.1), conRes.2)

/-- The per-datum loop body of `sync_positions_for_broker_account`: always
append a fresh `Position` snapshot row after resolving instrument/contract. -/
def syncOnePosition (account : String) (portfolio_id : Nat) (db : Db)
    (pd : PositionData) : Db :=
  let res := getOrCreateInstrumentAndContract db pd
  let ids := res.1
  let db2 := res.2
  let row : PositionRow :=
    { id := db2.nextId, portfolio_id := portfolio_id, broker_account := account
      instrument_id := ids.1, ibkr_con_id := ids.2
      qty := pd.qty, avg_cost := pd.avg_cost, market_price := pd.market_price
      market_value := pd.market_value, asof_ts := pd.asof_ts }
  { db2 with nextId := db2.nextId + 1, positions := db2.positions ++ [row] }

def syncPositionsList (account : String) (portfolio_id : Nat) :
    List PositionData → Db → Nat → Nat × Db
  | [], db, created => (created, db)
  | pd :: rest, db, created =>
    syncPositionsList account portfolio_id rest (syncOnePosition account portfolio_id db pd)
      (created + 1)

/-- `sync_positions_for_broker_account(broker_account, portfolio)` with the
portfolio already resolved; returns the bare created count (a Python `int`). -/
def syncPositionsForBrokerAccount (account : String) (portfolio_id : Nat)
    (client : BrokerOutput) (db : Db) : Nat × Db :=
  syncPositionsList account portfolio_id client.positions db 0

/-! ## Account snapshot sync (`accounts_sync.py`) -/

/-- `sync_account_snapshot_for_broker_account`: take the first fetched
snapshot, failing when the broker returned none; always append a fresh row.
Returns the created `AccountSnapshot` object. -/
def syncAccountSnapshotForBrokerAccount (account : String) (client : BrokerOutput)
    (db : Db) : Except String (SnapshotRow × Db) :=
  match client.account_snapshots with
  | [] => Except.error ("No account snapshot data returned for broker account " ++ account)
  | d :: _ =>
    let row : SnapshotRow :=
      { id := db.nextId, broker_account := account, asof_ts := d.asof_ts
        currency := d.currency, cash := d.cash, buying_power := d.buying_power
        maintenance_margin := d.maintenance_margin, used_margin := d.used_margin
        extras := d.extras }
    Except.ok (row, { db with nextId := db.nextId + 1, snapshots := db.snapshots ++ [row] })

/-! ## Order sync (`orders_sync.py`) -/

structure OrdersSummary where
  created : Nat
  updated : Nat
  total : Nat
deriving DecidableEq

def findOrderByKey (orders : List OrderRow) (account : String) (order_id : ℤ) :
    Option OrderRow :=
  orders.find? (fun r => r.broker_account == account && r.ibkr_order_id == order_id)

/-- The `defaults=` dict of the order upsert: overwrite the mutable fields of
a row, leaving the key fields (`broker_account`, `ibkr_order_id`) and `id`
untouched. -/
def applyOrderDefaults (od : OrderData) (ibkr_con_id : Option Nat) (r : OrderRow) :
    OrderRow :=
  { r with ibkr_con_id := ibkr_con_id, side := od.side, order_type := od.order_type
           limit_price := od.limit_price, aux_price := od.aux_price, tif := od.tif
           status := od.status, created_ts := od.created_ts
           updated_ts := od.updated_ts, raw := od.raw }

/-- `Order.objects.update_or_create(broker_account=..., ibkr_order_id=...,
defaults=...)`: update the mutable fields of the keyed row in place, or append
a new row.  Returns Django's `created` flag. -/
def updateOrCreateOrder (db : Db) (account : String) (od : OrderData)
    (ibkr_con_id : Option Nat) : Bool × Db :=
  match findOrderByKey db.orders account od.ibkr_order_id with
  | some existing =>
    (false,
      { db with orders := db.orders.map (fun r =>
          if r.id == existing.id then applyOrderDefaults od ibkr_con_id r else r) })
  | none =>
    let row : OrderRow :=
      { id := db.nextId, broker_account := account, ibkr_order_id := od.ibkr_order_id
        ibkr_con_id := ibkr_con_id, side := od.side, order_type := od.order_type
        limit_price := od.limit_price, aux_price := od.aux_price, tif := od.tif
        status := od.status, created_ts := od.created_ts, updated_ts := od.updated_ts
        raw := od.raw }
    (true, { db with nextId := db.nextId + 1, orders := db.orders ++ [row] })

/-- `od.broker_account_code and od.broker_account_code != account_code`: a
non-empty mismatching account code makes the record be skipped silently. -/
def orderMismatch (account : String) (code : String) : Bool :=
  code != "" && code != account

def syncOrdersList (account : String) :
    List OrderData → Db → Nat → Nat → OrdersSummary × Db
  | [], db, created, updated =>
    ({ created := created, updated := updated, total := created + updated }, db)
  | od :: rest, db, created, updated =>
    if orderMismatch account od.broker_account_code then
      syncOrdersList account rest db created updated
    else
      let ibkr_con_id := (od.con_id.bind (findContractByConId db.contracts)).map (fun r => r.id)
      let step := updateOrCreateOrder db account od ibkr_con_id
      if step.1 then syncOrdersList account rest step.2 (created + 1) updated
      else syncOrdersList account rest step.2 created (updated + 1)

/-- `sync_orders_for_broker_account`: idempotent upsert keyed on
`(broker_account, ibkr_order_id)`, returning `{created, updated, total}`. -/
def syncOrdersForBrokerAccount (account : String) (client : BrokerOutput) (db : Db) :
    OrdersSummary × Db :=
  syncOrdersList account client.open_orders db 0 0

/-! ## Execution sync (`executions_sync.py`) -/

structure ExecutionsSummary where
  created : Nat
  skipped_existing : Nat
  total : Nat
deriving DecidableEq

def execIdExists (executions : List ExecutionRow) (exec_id : String) : Bool :=
  executions.any (fun r => r.ibkr_exec_id == exec_id)

/-- `Order.objects.filter(broker_account=..., ibkr_order_id=...)
.order_by("-created_ts").first()` — the first row carrying the maximal
`created_ts` among the keyed rows. -/
def latestOrderForKey (orders : List OrderRow) (account : String) (order_id : ℤ) :
    Option OrderRow :=
  (orders.filter (fun r => r.broker_account == account && r.ibkr_order_id == order_id)).foldl
    (fun best r =>
      match best with
      | none => some r
      | some b => if r.created_ts > b.created_ts then some r else some b)
    none

def resolveOrderForExecution (orders : List OrderRow) (account : String)
    (oid : Option ℤ) : Option OrderRow :=
  oid.bind (latestOrderForKey orders account)

def syncExecutionsList (account : String) :
    List ExecutionData → Db → Nat → Nat → ExecutionsSummary × Db
  | [], db, created, skipped =>
    ({ created := created, skipped_existing := skipped, total := created + skipped }, db)
  | ed :: rest, db, created, skipped =>
    if orderMismatch account ed.broker_account_code then
      syncExecutionsList account rest db created skipped
    else if execIdExists db.executions ed.ibkr_exec_id then
      syncExecutionsList account rest db created (skipped + 1)
    else
      match resolveOrderForExecution db.orders account ed.ibkr_order_id with
      | none =>
        -- `Execution.order` is non-nullable: unresolvable orders are skipped.
        syncExecutionsList account rest db created (skipped + 1)
      | some order_row =>
        let row : ExecutionRow :=
          { id := db.nextId, order_id := order_row.id, ibkr_exec_id := ed.ibkr_exec_id
            fill_ts := ed.fill_ts, qty := ed.qty, price := ed.price, fee := ed.fee
            venue := ed.venue, raw := ed.raw }
        syncExecutionsList account rest
          { db with nextId := db.nextId + 1, executions := db.executions ++ [row] }
          (created + 1) skipped

/-- `sync_executions_for_broker_account`: idempotent insert keyed on the
globally unique `ibkr_exec_id`, returning `{created, skipped_existing, total}`. -/
def syncExecutionsForBrokerAccount (account : String) (client : BrokerOutput)
    (db : Db) : ExecutionsSummary × Db :=
  syncExecutionsList account client.executions db 0 0

/-! ## Option-event sync (`option_events_sync.py`) -/

def resolveContractRowId (contracts : List IbkrContractRow) (con_id : Option ℤ) :
    Option Nat :=
  (con_id.bind (findContractByConId contracts)).map (fun r => r.id)

def optionEventExists (events : List OptionEventRow) (account : String) (con : Option Nat)
    (event_type : String) (event_ts : ℤ) (qty : ℚ) : Bool :=
  events.any (fun r =>
    r.broker_account == account && r.ibkr_con_id == con &&
    r.event_type == event_type && r.event_ts == event_ts && r.qty == qty)

def syncOptionEventsList (account : String) :
    List OptionEventData → Db → Nat → Nat → ExecutionsSummary × Db
  | [], db, created, skipped =>
    ({ created := created, skipped_existing := skipped, total := created + skipped }, db)
  | ev :: rest, db, created, skipped =>
    if orderMismatch account ev.broker_account_code then
      syncOptionEventsList account rest db created skipped
    else
      let con := resolveContractRowId db.contracts ev.con_id
      if optionEventExists db.optionEvents account con ev.event_type ev.event_ts ev.qty then
        syncOptionEventsList account rest db created (skipped + 1)
      else
        let row : OptionEventRow :=
          { id := db.nextId, broker_account := account, ibkr_con_id := con
            event_type := ev.event_type, event_ts := ev.event_ts, qty := ev.qty
            notes := ev.notes }
        syncOptionEventsList account rest
          { db with nextId := db.nextId + 1, optionEvents := db.optionEvents ++ [row] }
          (created + 1) skipped

/-- `sync_option_events_for_broker_account`: dedup on the natural key
`(broker_account, ibkr_con, event_type, event_ts, qty)`. -/
def syncOptionEventsForBrokerAccount (account : String) (client : BrokerOutput)
    (db : Db) : ExecutionsSummary × Db :=
  syncOptionEventsList account client.option_events db 0 0

/-! ## Batch snapshot sync (`accounts_sync.py`, management command) -/

/-- `sync_all_ibkr_account_snapshots()`: loop over the LIVE / PAPER_LINKED
accounts calling the per-account sync; errors are deliberately let through
("Let errors surface"), so one failing account aborts the loop. -/
def syncAllIbkrAccountSnapshots (accounts : List (String × BrokerOutput)) (db : Db) :
    Except String (Nat × Db) :=
  match accounts with
  | [] => Except.ok (0, db)
  | (acc, client) :: rest =>
    match syncAccountSnapshotForBrokerAccount acc client db with
    | Except.error msg => Except.error msg
    | Except.ok res =>
      match syncAllIbkrAccountSnapshots rest res.2 with
      | Except.error msg => Except.error msg
      | Except.ok tail => Except.ok (tail.1 + 1, tail.2)

/-- The `sync_ibkr_account_snapshots` management command loop, which — unlike
`sync_all_ibkr_account_snapshots` — wraps each account in `try/except`, prints
the failure and continues with the remaining accounts. -/
def syncSnapshotsCommand (accounts : List (String × BrokerOutput)) (db : Db) :
    Nat × Db :=
  match accounts with
  | [] => (0, db)
  | (acc, client) :: rest =>
    match syncAccountSnapshotForBrokerAccount acc client db with
    | Except.error _ => syncSnapshotsCommand rest db
    | Except.ok res =>
      let tail := syncSnapshotsCommand rest res.2
      (tail.1 + 1, tail.2)

/-! ## A uniform view of each sync job's Python return value (for §4.2's
"summary" contract): `summary` for the dict-returning jobs, `count` for the
bare integer `sync_positions_for_broker_account` returns, and `snapshotObj`
for the model object `sync_account_snapshot_for_broker_account` returns. -/

inductive SyncReturn where
  | summary (created other total : Nat)
  | count (n : Nat)
  | snapshotObj (row : SnapshotRow)
  | failure (msg : String)
deriving DecidableEq

def positionsSyncReturn (account : String) (portfolio_id : Nat) (client : BrokerOutput)
    (db : Db) : SyncReturn :=
  SyncReturn.count (syncPositionsForBrokerAccount account portfolio_id client db).1

def accountSnapshotSyncReturn (account : String) (client : BrokerOutput) (db : Db) :
    SyncReturn :=
  match syncAccountSnapshotForBrokerAccount account client db with
  | Except.ok res => SyncReturn.snapshotObj res.1
  | Except.error msg => SyncReturn.failure msg

def ordersSyncReturn (account : String) (client : BrokerOutput) (db : Db) : SyncReturn :=
  let s := (syncOrdersForBrokerAccount account client db).1
  SyncReturn.summary s.created s.updated s.total

def executionsSyncReturn (account : String) (client : BrokerOutput) (db : Db) : SyncReturn :=
  let s := (syncExecutionsForBrokerAccount account client db).1
  SyncReturn.summary s.created s.skipped_existing s.total

def optionEventsSyncReturn (account : String) (client : BrokerOutput) (db : Db) : SyncReturn :=
  let s := (syncOptionEventsForBrokerAccount account client db).1
  SyncReturn.summary s.created s.skipped_existing s.total

/-- Whether a sync return value has the `{created, updated|skipped_existing,
total}` summary shape with `total` the sum of the other two counters. -/
def isSummaryWithTotal : SyncReturn → Bool
  | SyncReturn.summary c o t => t == c + o
  | _ => false

/-! ## Store-level key predicates (for the idempotence development) -/

def hasOrderKey (orders : List OrderRow) (account : String) (oid : ℤ) : Bool :=
  orders.any (fun r => r.broker_account == account && r.ibkr_order_id == oid)

def hasInstrumentKey (instruments : List InstrumentRow)
    (symbol exchange asset_type currency : String) : Bool :=
  instruments.any (fun r =>
    r.symbol == symbol && r.exchange == exchange &&
    r.asset_type == asset_type && r.currency == currency)

def hasContractCon (contracts : List IbkrContractRow) (cid : ℤ) : Bool :=
  contracts.any (fun r => r.con_id == cid)

/-! ## The §4.7 rejection rules, stated structurally -/

/-- Rule (2) fails: `not context.broker_account or not
context.broker_account.account_code`. -/
def accountCodeMissing (c : StrategyContextM) : Bool :=
  match c.broker_account with
  | none => true
  | some b => b.account_code == ""

/-- The value `_extract_decimal(params, "qty", "quantity")` would pick:
the first of the two keys present with a non-`None`, non-`""` value. -/
def qtyParamVal (p : Params) : Option PVal :=
  if pvalPresent (pget p "qty") then pget p "qty"
  else if pvalPresent (pget p "quantity") then pget p "quantity"
  else none

/-- Rule (3) fails: the `qty`/`quantity` parameter is missing or parses to a
non-positive quantity. -/
def qtyMissingOrNonpositive (p : Params) : Bool :=
  match qtyParamVal p with
  | none => true
  | some v =>
    match pvalToDecimal v with
    | some q => decide (q ≤ 0)
    | none => false

/-- Rule (4) fails: neither the attached contract reference nor a non-`None`
`con_id` parameter provides a contract identifier. -/
def conIdUnresolvable (a : PlannedAction) : Bool :=
  (match a.ibkr_con with
   | some r => r.con_id.isNone
   | none => true) &&
  (match pget a.params "con_id" with
   | some PVal.null => true
   | some _ => false
   | none => true)

def pvalIsStrOrNull : PVal → Bool
  | PVal.str _ => true
  | PVal.null => true
  | _ => false

def pvalIsNumOrNull : PVal → Bool
  | PVal.num _ => true
  | PVal.null => true
  | _ => false

/-- Well-formed parameter dictionaries: the string-typed slots (`order_type`,
`tif`) hold strings or `None`, every other slot holds a number or `None`.
This is the regime the §4.7 claim speaks about; outside it Python raises
unrelated exceptions (`InvalidOperation`, `ValueError`, `AttributeError`)
before the mapper can classify the action. -/
def paramsWF (p : Params) : Bool :=
  p.all (fun kv =>
    if kv.1 == "order_type" || kv.1 == "tif" then pvalIsStrOrNull kv.2
    else pvalIsNumOrNull kv.2)

theorem pget_mem {p : Params} {k : String} {v : PVal} (h : pget p k = some v) :
    (k, v) ∈ p := by
  unfold pget at h
  rcases Option.map_eq_some'.mp h with ⟨kv, hfind, hv⟩
  have hk : kv.1 = k := by
    have := List.find?_some hfind
    simpa using this
  have hmem := List.mem_of_find?_eq_some hfind
  have : kv = (k, v) := by
    cases kv
    simp only at hk hv
    rw [hk, hv]
  rwa [this] at hmem

theorem paramsWF_num {p : Params} {k : String} {v : PVal} (hwf : paramsWF p = true)
    (hk1 : k ≠ "order_type") (hk2 : k ≠ "tif") (h : pget p k = some v) :
    pvalIsNumOrNull v = true := by
  have hmem := pget_mem h
  have hall := List.all_eq_true.mp hwf (k, v) hmem
  simpa [hk1, hk2] using hall

theorem paramsWF_str {p : Params} {v : PVal} (hwf : paramsWF p = true)
    {k : String} (hk : k = "order_type" ∨ k = "tif") (h : pget p k = some v) :
    pvalIsStrOrNull v = true := by
  have hmem := pget_mem h
  have hall := List.all_eq_true.mp hwf (k, v) hmem
  rcases hk with rfl | rfl <;> simpa using hall

/-- Under well-formed params, a present value is a number. -/
theorem present_num_of_wf {p : Params} {k : String} {v : PVal}
    (hwf : paramsWF p = true) (hk1 : k ≠ "order_type") (hk2 : k ≠ "tif")
    (h : pget p k = some v) (hpres : pvalPresent (some v) = true) :
    ∃ q, v = PVal.num q := by
  have hnum := paramsWF_num hwf hk1 hk2 h
  cases v with
  | num q => exact ⟨q, rfl⟩
  | str s => simp [pvalIsNumOrNull] at hnum
  | null => simp [pvalPresent] at hpres

theorem tifOf_ok_of_wf {p : Params} (hwf : paramsWF p = true) :
    ∃ s, tifOf p = Except.ok s := by
  unfold tifOf
  cases htif : pget p "tif" with
  | none => exact ⟨"DAY", rfl⟩
  | some v =>
    by_cases htr : pvalTruthy v = true
    · have hstr := paramsWF_str hwf (Or.inr rfl) htif
      cases v with
      | num q => simp [pvalIsStrOrNull] at hstr
      | str s => exact ⟨strUpper s, by simp [htr, pvalUpper]⟩
      | null => simp [pvalTruthy] at htr
    · exact ⟨"DAY", by simp [htr]⟩

theorem limitPriceOf_ok_of_wf {p : Params} (hwf : paramsWF p = true) :
    ∃ o, limitPriceOf p = Except.ok o := by
  unfold limitPriceOf
  by_cases hpres : pvalPresent (pget p "limit_price") = true
  · cases hlp : pget p "limit_price" with
    | none => rw [hlp] at hpres; simp [pvalPresent] at hpres
    | some v =>
      rw [hlp] at hpres
      obtain ⟨q, rfl⟩ := present_num_of_wf hwf (by decide) (by decide) hlp hpres
      exact ⟨some q, by simp [hpres, hlp, pvalToDecimal]⟩
  · exact ⟨none, by simp [hpres]⟩

theorem extractDecimal_qty_of_wf {p : Params} (hwf : paramsWF p = true) :
    (qtyParamVal p = none ∧
      extractDecimal p ["qty", "quantity"] true =
        Except.error (MapExc.mappingError "Missing required numeric parameter")) ∨
    (∃ q, qtyParamVal p = some (PVal.num q) ∧
      extractDecimal p ["qty", "quantity"] true = Except.ok q) := by
  unfold qtyParamVal extractDecimal
  by_cases h1 : pvalPresent (pget p "qty") = true
  · cases hq : pget p "qty" with
    | none => rw [hq] at h1; simp [pvalPresent] at h1
    | some v =>
      rw [hq] at h1
      obtain ⟨q, rfl⟩ := present_num_of_wf hwf (by decide) (by decide) hq h1
      refine Or.inr ⟨q, ?_, ?_⟩
      · simp [h1, hq]
      · simp [h1, hq, pvalToDecimal]
  · by_cases h2 : pvalPresent (pget p "quantity") = true
    · cases hq : pget p "quantity" with
      | none => rw [hq] at h2; simp [pvalPresent] at h2
      | some v =>
        rw [hq] at h2
        obtain ⟨q, rfl⟩ := present_num_of_wf hwf (by decide) (by decide) hq h2
        refine Or.inr ⟨q, ?_, ?_⟩
        · simp [h1, h2, hq]
        · unfold extractDecimal
          simp [h1, h2, hq, pvalToDecimal]
    · refine Or.inl ⟨by simp [h1, h2], ?_⟩
      simp [extractDecimal, h1, h2]

theorem conIdOf_of_wf {a : PlannedAction} (hwf : paramsWF a.params = true) :
    (conIdUnresolvable a = true ∧ conIdOf a = Except.ok none) ∨
    (∃ i, conIdOf a = Except.ok (some i) ∧ conIdUnresolvable a = false) := by
  unfold conIdOf conIdUnresolvable
  cases hcon : a.ibkr_con with
  | some r =>
    cases hc : r.con_id with
    | some c => exact Or.inr ⟨c, by simp [hc], by simp [hc]⟩
    | none =>
      cases hcid : pget a.params "con_id" with
      | none => exact Or.inl ⟨by simp [hc, hcid], by simp [hc, hcid]⟩
      | some v =>
        cases v with
        | null => exact Or.inl ⟨by simp [hc, hcid], by simp [hc, hcid]⟩
        | num q =>
          exact Or.inr ⟨truncRat q, by simp [hc, hcid, pvalToInt], by simp [hc, hcid]⟩
        | str s =>
          have := paramsWF_num hwf (by decide) (by decide) hcid
          simp [pvalIsNumOrNull] at this
  | none =>
    cases hcid : pget a.params "con_id" with
    | none => exact Or.inl ⟨by simp [hcid], by simp [hcid]⟩
    | some v =>
      cases v with
      | null => exact Or.inl ⟨by simp [hcid], by simp [hcid]⟩
      | num q =>
        exact Or.inr ⟨truncRat q, by simp [hcid, pvalToInt], by simp [hcid]⟩
      | str s =>
        have := paramsWF_num hwf (by decide) (by decide) hcid
        simp [pvalIsNumOrNull] at this

theorem sideMap_isSome_of_mem {s : String} (h : s ∈ EXECUTABLE_ACTIONS) :
    ∃ v, sideMap s = some v := by
  simp only [EXECUTABLE_ACTIONS, List.mem_cons, List.mem_singleton,
    List.not_mem_nil, or_false] at h
  rcases h with rfl | rfl | rfl | rfl | rfl | rfl <;> exact ⟨_, rfl⟩

theorem orderTypeRaw_upper_ok_of_wf {p : Params} (hwf : paramsWF p = true)
    (lp : Option ℚ) : ∃ s, pvalUpper (orderTypeRawOf p lp) = Except.ok s := by
  unfold orderTypeRawOf
  cases hot : pget p "order_type" with
  | none =>
    cases lp with
    | some q => exact ⟨_, rfl⟩
    | none => exact ⟨_, rfl⟩
  | some v =>
    by_cases htr : pvalTruthy v = true
    · have hstr := paramsWF_str hwf (Or.inl rfl) hot
      cases v with
      | num q => simp [pvalIsStrOrNull] at hstr
      | str s => exact ⟨strUpper s, by simp [htr, pvalUpper]⟩
      | null => simp [pvalTruthy] at htr
    · simp only [htr, if_false]
      cases lp with
      | some q => exact ⟨_, rfl⟩
      | none => exact ⟨_, rfl⟩

/-- If none of the four §4.7 rejection rules fires (under well-formed params),
the mapper produces an intent. -/
theorem mapping_ok_of_no_violation (a : PlannedAction) (c : StrategyContextM)
    (hwf : paramsWF a.params = true)
    (hmem : a.action ∈ EXECUTABLE_ACTIONS)
    (hacct : accountCodeMissing c = false)
    (hqty : qtyMissingOrNonpositive a.params = false)
    (hcon : conIdUnresolvable a = false) :
    ∃ intent, mapPlannedActionToExecutionIntent a c = Except.ok intent := by
  unfold accountCodeMissing at hacct
  cases hacc : c.broker_account with
  | none => rw [hacc] at hacct; simp at hacct
  | some b =>
    rw [hacc] at hacct
    have hacct2 : (b.account_code == "") = false := by simpa using hacct
    rcases extractDecimal_qty_of_wf hwf with ⟨hqv, hext⟩ | ⟨q, hqv, hext⟩
    · unfold qtyMissingOrNonpositive at hqty
      rw [hqv] at hqty
      simp at hqty
    · have hqle : ¬ q ≤ 0 := by
        unfold qtyMissingOrNonpositive at hqty
        rw [hqv] at hqty
        simpa [pvalToDecimal] using hqty
      obtain ⟨o, hlp⟩ := limitPriceOf_ok_of_wf hwf
      obtain ⟨ts, htf⟩ := tifOf_ok_of_wf hwf
      rcases conIdOf_of_wf hwf with ⟨hbad, _⟩ | ⟨i, hok, _⟩
      · rw [hcon] at hbad; simp at hbad
      · obtain ⟨sv, hside⟩ := sideMap_isSome_of_mem hmem
        obtain ⟨os, hup⟩ := orderTypeRaw_upper_ok_of_wf hwf o
        unfold mapPlannedActionToExecutionIntent
        simp only [hacc, hext, hlp, htf, hok, hside, hup, hmem, not_true_eq_false,
          if_false, hacct2, Bool.false_eq_true, hqle]
        exact ⟨_, rfl⟩

/-- If one of the four §4.7 rejection rules fires (under well-formed params),
the mapper raises an `ExecutionMappingError`. -/
theorem mapping_error_of_violation (a : PlannedAction) (c : StrategyContextM)
    (hwf : paramsWF a.params = true)
    (h : a.action ∉ EXECUTABLE_ACTIONS ∨ accountCodeMissing c = true ∨
      qtyMissingOrNonpositive a.params = true ∨ conIdUnresolvable a = true) :
    ∃ msg, mapPlannedActionToExecutionIntent a c =
      Except.error (MapExc.mappingError msg) := by
  by_cases hmem : a.action ∈ EXECUTABLE_ACTIONS
  · cases hacc : c.broker_account with
    | none =>
      exact ⟨"Strategy context is missing broker_account.account_code",
        by simp [mapPlannedActionToExecutionIntent, hmem, hacc]⟩
    | some b =>
      by_cases hbc : (b.account_code == "") = true
      · exact ⟨"Strategy context is missing broker_account.account_code",
          by simp [mapPlannedActionToExecutionIntent, hmem, hacc, hbc]⟩
      · have hAccF : accountCodeMissing c = false := by
          unfold accountCodeMissing
          rw [hacc]
          simpa using hbc
        rcases extractDecimal_qty_of_wf hwf with ⟨hqv, hext⟩ | ⟨q, hqv, hext⟩
        · exact ⟨"Missing required numeric parameter", by
            simp [mapPlannedActionToExecutionIntent, hmem, hacc, hbc, hext]⟩
        · by_cases hq0 : q ≤ 0
          · exact ⟨"ExecutionIntent requires positive quantity", by
              simp [mapPlannedActionToExecutionIntent, hmem, hacc, hbc, hext, hq0]⟩
          · have hQtyF : qtyMissingOrNonpositive a.params = false := by
              unfold qtyMissingOrNonpositive
              rw [hqv]
              simpa [pvalToDecimal] using hq0
            have hcon : conIdUnresolvable a = true := by
              rcases h with h | h | h | h
              · exact absurd hmem h
              · rw [hAccF] at h; exact absurd h (by simp)
              · rw [hQtyF] at h; exact absurd h (by simp)
              · exact h
            rcases conIdOf_of_wf hwf with ⟨_, hok⟩ | ⟨i, _, hfalse⟩
            · obtain ⟨o, hlp⟩ := limitPriceOf_ok_of_wf hwf
              obtain ⟨ts, htf⟩ := tifOf_ok_of_wf hwf
              exact ⟨"Executable actions must carry an ibkr_con or con_id", by
                simp [mapPlannedActionToExecutionIntent, hmem, hacc, hbc, hext,
                  hq0, hlp, htf, hok]⟩
            · rw [hcon] at hfalse; simp at hfalse
  · exact ⟨"Non-executable or unsupported action: " ++ a.action,
      by simp [mapPlannedActionToExecutionIntent, hmem]⟩

/-- Claim C4: Under well-formed parameter values,
`map_planned_action_to_execution_intent` raises an `ExecutionMappingError`
(and so produces no `ExecutionIntent`) exactly when one of the rejection rules
holds: the verb is outside the executable set, the context lacks a resolvable
broker-account code, the `qty`/`quantity` parameter is missing or not strictly
positive, or no contract identifier is resolvable from the attached contract
reference or a `con_id` parameter. -/
theorem mapping_rejects_iff_rule_violated (a : PlannedAction) (c : StrategyContextM)
    (hwf : paramsWF a.params = true) :
    (∃ msg, mapPlannedActionToExecutionIntent a c =
        Except.error (MapExc.mappingError msg)) ↔
    (a.action ∉ EXECUTABLE_ACTIONS ∨ accountCodeMissing c = true ∨
     qtyMissingOrNonpositive a.params = true ∨ conIdUnresolvable a = true) := by
  constructor
  · intro hl
    by_contra hr
    push_neg at hr
    obtain ⟨h1, h2, h3, h4⟩ := hr
    obtain ⟨intent, hok⟩ := mapping_ok_of_no_violation a c hwf h1
      (by simpa using h2) (by simpa using h3) (by simpa using h4)
    rcases hl with ⟨msg, herr⟩
    rw [hok] at herr
    exact Except.noConfusion herr
  · exact mapping_error_of_violation a c hwf

/-! ## Concrete fixtures used by witnesses and counterexamples -/

def planActA : PlannedAction := { action := "sell_put", plan_id := some "a" }
def planActB : PlannedAction := { action := "sell_put", plan_id := some "b" }
def planActC : PlannedAction := { action := "sell_put", plan_id := some "c" }

/-- 20 actions forming three plan-groups of sizes 12, 3 and 5. -/
def demoActions1235 : List PlannedAction :=
  List.replicate 12 planActA ++ List.replicate 3 planActB ++ List.replicate 5 planActC

def demoLimits : SafetyLimits := { max_recommendations := 15, max_per_plan := 10 }

def emptyDb : Db := {}

/-- The §8 round-trip example datum: con_id 265598, symbol AAPL, qty 10. -/
def aaplPos : PositionData :=
  { broker_account_code := "U1234567", symbol := "AAPL", exchange := some "NASDAQ"
    asset_type := "equity", currency := "USD", con_id := some 265598
    qty := 10, avg_cost := 150, market_price := 170, market_value := 1700
    asof_ts := 0, raw := [] }

def demoSnapData : AccountSnapshotData :=
  { broker_account_code := "U1234567", currency := "USD", asof_ts := 0
    cash := 1000, buying_power := 2000, maintenance_margin := 0, used_margin := 0
    extras := [] }

/-- A canned broker client holding one snapshot and the AAPL position. -/
def demoClient : BrokerOutput :=
  { account_snapshots := [demoSnapData], positions := [aaplPos] }

/-- A canned broker client returning no snapshots: the snapshot sync fails. -/
def noSnapClient : BrokerOutput := {}

/-- The §8 example action: verb `sell_put`, quantity 1, limit price 2.50, an
attached contract id. -/
def sellPutAction : PlannedAction :=
  { action := "sell_put"
    params := [("qty", PVal.num 1), ("limit_price", PVal.num (5 / 2))]
    ibkr_con := some { con_id := some 265598 } }

/-- The §8 diagnostic no-op action with an otherwise complete parameter set. -/
def diagnosticAction : PlannedAction :=
  { action := "diagnostic"
    params := [("qty", PVal.num 1), ("con_id", PVal.num 265598)] }

def demoMapCtx : StrategyContextM :=
  { broker_account := some { account_code := "U1234567" } }

/-- A callable-shaped strategy producing 60 one-plan actions, for witnesses:
well beyond the configured safety caps. -/
def bigCallableInstance : StrategyInstanceModel :=
  { impl := StrategyImpl.callableImpl (fun _ => Except.ok (List.replicate 60 planActA))
    safety := some demoLimits }

def emptyCtx : StrategyContextM := { broker_account := none }

def failingInstance : StrategyInstanceModel :=
  { impl := StrategyImpl.classBased (fun _ => Except.error "Synthetic failure")
    safety := none }

/-!  Theorems -/

/-- Claim C6: For every action list that forms 3 plan-groups of sizes
[12, 3, 5], and limits `max_per_plan = 10`, `max_recommendations = 15`,
`apply_safety_limits` truncates each group to at most `max_per_plan` entries
preserving order, concatenates the groups in encounter order, truncates the
concatenation to `max_recommendations`, and so returns exactly 15 actions with
the first group truncated to 10. -/
theorem safety_limits_group_truncation (actions : List PlannedAction)
    (limits : SafetyLimits) (k0 k1 k2 : Option String) (g0 g1 g2 : List PlannedAction)
    (hg : groupByPlan actions = [(k0, g0), (k1, g1), (k2, g2)])
    (h0 : g0.length = 12) (h1 : g1.length = 3) (h2 : g2.length = 5)
    (hp : limits.max_per_plan = 10) (hr : limits.max_recommendations = 15) :
    (applySafetyLimits actions limits).1 = g0.take 10 ++ (g1 ++ g2.take 2) ∧
    (applySafetyLimits actions limits).1.length = 15 := by
  have hkey : (applySafetyLimits actions limits).1 =
      ((([] ++ g0.take 10) ++ g1.take 10) ++ g2.take 10).take 15 := by
    simp only [applySafetyLimits, hg, hp, hr, List.foldl]
  have ht1 : g1.take 10 = g1 := List.take_of_length_le (by omega)
  have ht2 : g2.take 10 = g2 := List.take_of_length_le (by omega)
  have hlen0 : (g0.take 10).length = 10 := by
    rw [List.length_take, h0]; omega
  have hmain : (applySafetyLimits actions limits).1 = g0.take 10 ++ (g1 ++ g2.take 2) := by
    rw [hkey, ht1, ht2, List.nil_append, List.append_assoc,
      List.take_append_eq_append_take, hlen0]
    have : (g0.take 10).take 15 = g0.take 10 := List.take_of_length_le (by omega)
    rw [this, List.take_append_eq_append_take, h1]
    have : g1.take (15 - 10) = g1 := List.take_of_length_le (by omega)
    rw [this]
  refine ⟨hmain, ?_⟩
  rw [hmain]
  simp only [List.length_append, hlen0, h1, List.length_take, h2]
  omega

/-- Witness for `safety_limits_group_truncation` at 20 concrete actions. -/
theorem safety_limits_group_truncation_witness :
    (applySafetyLimits demoActions1235 demoLimits).1.length = 15 :=
  (safety_limits_group_truncation demoActions1235 demoLimits
    (some "a") (some "b") (some "c")
    (List.replicate 12 planActA) (List.replicate 3 planActB) (List.replicate 5 planActC)
    (by decide) (by decide) (by decide) (by decide) rfl rfl).2

/-- Claim C9: `validate_config_against_schema` type-checks `integer` and
`number` properties with Python `isinstance(value, int)` /
`isinstance(value, (int, float))`; since `bool` is a subclass of `int`, a
boolean config value silently passes both checks and the validator reports no
violation. -/
theorem bool_passes_numeric_schema_checks (schema : Schema) (name t : String)
    (b : Bool) (hty : schema.type = some "object")
    (hprop : lookupProp schema.properties name = some (some t))
    (ht : t = "integer" ∨ t = "number") (hreq : schema.required = []) :
    validateConfigAgainstSchema [(name, PyVal.vbool b)] schema = [] := by
  unfold validateConfigAgainstSchema
  rw [hty, hreq]
  simp only [List.filter_nil, List.map_nil, List.foldr, List.nil_append]
  unfold propErrors
  rw [hprop]
  rcases ht with h | h <;> subst h <;> simp [pyIsInt, pyIsNumber, pyIsBool, pyIsStr]

/-- Witness for `bool_passes_numeric_schema_checks`: a boolean under an
`integer`-typed property validates cleanly. -/
theorem bool_passes_numeric_schema_checks_witness :
    validateConfigAgainstSchema [("max_legs", PyVal.vbool true)]
      { type := some "object", properties := [("max_legs", some "integer")] } = [] :=
  bool_passes_numeric_schema_checks
    { type := some "object", properties := [("max_legs", some "integer")] }
    "max_legs" "integer" true rfl (by decide) (Or.inl rfl) rfl

/-- Claim C10: `run_strategy_instance` always returns the full pre-safety list
of `PlannedAction`s the strategy produced, under both implementation variants
and for every safety configuration: the safety caps never change the return
value. -/
theorem executor_returns_pre_safety_actions (inst : StrategyInstanceModel)
    (ctx : StrategyContextM) (persist : Bool) (actions : List PlannedAction)
    (h : implEval inst.impl ctx = Except.ok actions) :
    (runStrategyInstance inst (Except.ok ctx) persist).result = Except.ok actions := by
  obtain ⟨impl, safety⟩ := inst
  cases impl with
  | classBased runf =>
    simp only [implEval] at h
    simp [runStrategyInstance, h]
  | callableImpl f =>
    simp only [implEval] at h
    simp [runStrategyInstance, h]

/-- Witness for `executor_returns_pre_safety_actions`: a run whose 60 actions
exceed the caps (15/10) still returns all 60. -/
theorem executor_returns_pre_safety_actions_witness :
    (runStrategyInstance bigCallableInstance (Except.ok emptyCtx) true).result =
      Except.ok (List.replicate 60 planActA) :=
  executor_returns_pre_safety_actions bigCallableInstance emptyCtx true
    (List.replicate 60 planActA) rfl

/-- Claim C7: When the strategy's evaluate/run entrypoint raises, the executor
leaves the `StrategyRun` row in terminal status `"error"` with a non-empty
captured trace, and re-raises the exception to the caller. -/
theorem failing_run_records_error_and_reraises (inst : StrategyInstanceModel)
    (ctx : StrategyContextM) (persist : Bool) (msg : String)
    (h : implEval inst.impl ctx = Except.error msg) :
    (runStrategyInstance inst (Except.ok ctx) persist).run.status = "error" ∧
    (runStrategyInstance inst (Except.ok ctx) persist).run.error_trace ≠ "" ∧
    (runStrategyInstance inst (Except.ok ctx) persist).result = Except.error msg := by
  have hne : ("Traceback (most recent call last): " ++ msg) ≠ "" := by
    intro hc
    have hl : ("Traceback (most recent call last): " ++ msg).length = 0 := by rw [hc]; rfl
    rw [String.length_append] at hl
    have h35 : ("Traceback (most recent call last): " : String).length = 35 := rfl
    omega
  obtain ⟨impl, safety⟩ := inst
  cases impl with
  | classBased runf =>
    simp only [implEval] at h
    exact ⟨by simp [runStrategyInstance, h], by simp [runStrategyInstance, h, hne],
      by simp [runStrategyInstance, h]⟩
  | callableImpl f =>
    simp only [implEval] at h
    exact ⟨by simp [runStrategyInstance, h], by simp [runStrategyInstance, h, hne],
      by simp [runStrategyInstance, h]⟩

/-- Witness for `failing_run_records_error_and_reraises`. -/
theorem failing_run_records_error_and_reraises_witness :
    (runStrategyInstance failingInstance (Except.ok emptyCtx) true).run.status = "error" ∧
    (runStrategyInstance failingInstance (Except.ok emptyCtx) true).run.error_trace ≠ "" ∧
    (runStrategyInstance failingInstance (Except.ok emptyCtx) true).result =
      Except.error "Synthetic failure" :=
  failing_run_records_error_and_reraises failingInstance emptyCtx true
    "Synthetic failure" rfl

set_option maxRecDepth 4000 in
/-- Claim C3, counterexample: the claim "under both pluggable-implementation
variants the executor applies the safety limits and persists only the
surviving actions" fails for the callable variant: a callable strategy
emitting 60 one-plan actions under caps (15, 10) gets all 60 persisted, while
the safety filter would have kept 10. -/
theorem callable_variant_skips_safety_cex :
    (runStrategyInstance bigCallableInstance (Except.ok emptyCtx) true).persisted.length = 60 ∧
    (applySafetyLimits (List.replicate 60 planActA)
      (safetyLimitsOf bigCallableInstance)).1.length = 10 ∧
    (runStrategyInstance bigCallableInstance (Except.ok emptyCtx) true).persisted ≠
      (applySafetyLimits (List.replicate 60 planActA)
        (safetyLimitsOf bigCallableInstance)).1 := by
  refine ⟨by decide, by decide, ?_⟩
  intro hcontra
  have h1 : (runStrategyInstance bigCallableInstance (Except.ok emptyCtx) true).persisted.length = 60 := by decide
  have h2 : (applySafetyLimits (List.replicate 60 planActA)
      (safetyLimitsOf bigCallableInstance)).1.length = 10 := by decide
  rw [hcontra, h2] at h1
  omega

/-- Claim C3, amended: for every strategy run: in the stateful class-based
variant the executor applies the §4.6 safety limits and, when persistence was
requested, persists exactly the surviving actions; in the stateless callable
variant the safety filter is bypassed and all collected actions are persisted
unfiltered. -/
theorem safety_filter_per_variant
    (runf : StrategyContextM → Except String (List PlannedAction))
    (safety : Option SafetyLimits) (ctx : StrategyContextM)
    (actions : List PlannedAction) (h : runf ctx = Except.ok actions) :
    (runStrategyInstance ⟨StrategyImpl.classBased runf, safety⟩
        (Except.ok ctx) true).persisted =
      (applySafetyLimits actions
        (safetyLimitsOf ⟨StrategyImpl.classBased runf, safety⟩)).1 ∧
    (runStrategyInstance ⟨StrategyImpl.callableImpl runf, safety⟩
        (Except.ok ctx) true).persisted = actions := by
  constructor
  · simp only [runStrategyInstance, h]
    by_cases he :
        (applySafetyLimits actions (safetyLimitsOf ⟨StrategyImpl.classBased runf, safety⟩)).1.isEmpty
    · simp [he, List.isEmpty_iff.mp he]
    · simp [he]
  · simp only [runStrategyInstance, h]
    by_cases he : actions.isEmpty
    · simp [he, List.isEmpty_iff.mp he]
    · simp [he]

/-- Witness for `safety_filter_per_variant` at a concrete 60-action strategy:
the class-based variant persists the 10 surviving actions, the callable
variant persists all 60. -/
theorem safety_filter_per_variant_witness :
    (runStrategyInstance
        ⟨StrategyImpl.classBased (fun _ => Except.ok (List.replicate 60 planActA)),
          some demoLimits⟩ (Except.ok emptyCtx) true).persisted =
      (applySafetyLimits (List.replicate 60 planActA)
        (safetyLimitsOf
          ⟨StrategyImpl.classBased (fun _ => Except.ok (List.replicate 60 planActA)),
            some demoLimits⟩)).1 ∧
    (runStrategyInstance
        ⟨StrategyImpl.callableImpl (fun _ => Except.ok (List.replicate 60 planActA)),
          some demoLimits⟩ (Except.ok emptyCtx) true).persisted =
      List.replicate 60 planActA :=
  safety_filter_per_variant (fun _ => Except.ok (List.replicate 60 planActA))
    (some demoLimits) emptyCtx (List.replicate 60 planActA) rfl

/-- Claim C5: A `sell_put` action carrying quantity parameter 1, limit-price
parameter 2.50 and an attached contract id, mapped in a context with a
non-empty broker-account code and no explicit `order_type`/`tif` parameters,
yields an intent with side `SELL`, order type `LMT` (the default when a limit
price is present), quantity 1, limit price 2.50 and time-in-force `DAY`. -/
theorem sell_put_maps_to_limit_sell_intent (a : PlannedAction)
    (c : StrategyContextM) (b : BrokerAccountRef) (cid : ℤ)
    (hact : a.action = "sell_put")
    (hqty : pget a.params "qty" = some (PVal.num 1))
    (hlim : pget a.params "limit_price" = some (PVal.num (5 / 2)))
    (hot : pget a.params "order_type" = none)
    (htif : pget a.params "tif" = none)
    (hcon : a.ibkr_con = some { con_id := some cid })
    (hacct : c.broker_account = some b)
    (hcode : b.account_code ≠ "") :
    mapPlannedActionToExecutionIntent a c = Except.ok
      { broker_account_code := b.account_code
        con_id := some cid
        side := "SELL"
        order_type := "LMT"
        quantity := 1
        limit_price := some (5 / 2)
        tif := "DAY"
        action := "sell_put"
        plan_id := a.plan_id
        notes := a.rationale
        raw_params := a.params } := by
  have hmem : a.action ∈ EXECUTABLE_ACTIONS := by rw [hact]; decide
  have hcodeb : (b.account_code == "") = false := by
    simp [hcode]
  have hqext : extractDecimal a.params ["qty", "quantity"] true = Except.ok 1 := by
    unfold extractDecimal
    rw [hqty]
    simp [pvalPresent, pvalToDecimal]
  have hlp : limitPriceOf a.params = Except.ok (some (5 / 2)) := by
    unfold limitPriceOf
    rw [hlim]
    simp [pvalPresent, pvalToDecimal]
  have htf : tifOf a.params = Except.ok "DAY" := by
    unfold tifOf
    rw [htif]
  have hci : conIdOf a = Except.ok (some cid) := by
    unfold conIdOf
    rw [hcon]
  have hotr : orderTypeRawOf a.params (some (5 / 2)) = PVal.str "LMT" := by
    unfold orderTypeRawOf
    rw [hot]
    rfl
  unfold mapPlannedActionToExecutionIntent
  simp only [hacct, hact, hcodeb, hqext, hlp, htf, hci, hotr, Bool.false_eq_true,
    if_false]
  norm_num [sideMap, pvalUpper]
  rw [if_pos (show "sell_put" ∈ EXECUTABLE_ACTIONS by decide),
    show strUpper "SELL" = "SELL" by decide, show strUpper "LMT" = "LMT" by decide,
    show strUpper "DAY" = "DAY" by decide]

/-- Witness for `sell_put_maps_to_limit_sell_intent` at the §8 example. -/
theorem sell_put_maps_to_limit_sell_intent_witness :
    mapPlannedActionToExecutionIntent sellPutAction demoMapCtx = Except.ok
      { broker_account_code := "U1234567"
        con_id := some 265598
        side := "SELL"
        order_type := "LMT"
        quantity := 1
        limit_price := some (5 / 2)
        tif := "DAY"
        action := "sell_put"
        plan_id := none
        notes := ""
        raw_params := [("qty", PVal.num 1), ("limit_price", PVal.num (5 / 2))] } :=
  sell_put_maps_to_limit_sell_intent sellPutAction demoMapCtx
    { account_code := "U1234567" } 265598 rfl rfl rfl rfl rfl rfl rfl (by decide)

/-- Witness for `mapping_rejects_iff_rule_violated`: at the diagnostic action
the well-formedness hypothesis holds by computation, and the instantiated
equivalence follow from the theorem. -/
theorem mapping_rejects_iff_rule_violated_witness :
    (∃ msg, mapPlannedActionToExecutionIntent diagnosticAction demoMapCtx =
        Except.error (MapExc.mappingError msg)) ↔
    (diagnosticAction.action ∉ EXECUTABLE_ACTIONS ∨
     accountCodeMissing demoMapCtx = true ∨
     qtyMissingOrNonpositive diagnosticAction.params = true ∨
     conIdUnresolvable diagnosticAction = true) :=
  mapping_rejects_iff_rule_violated diagnosticAction demoMapCtx (by decide)

theorem syncOrdersList_total_eq (account : String) (data : List OrderData) :
    ∀ (db : Db) (c u : Nat),
      (syncOrdersList account data db c u).1.total =
        (syncOrdersList account data db c u).1.created +
          (syncOrdersList account data db c u).1.updated := by
  induction data with
  | nil => intro db c u; rfl
  | cons od rest ih =>
    intro db c u
    rw [syncOrdersList]
    split
    · exact ih db c u
    · dsimp only
      split
      · exact ih _ _ _
      · exact ih _ _ _

theorem syncExecutionsList_total_eq (account : String) (data : List ExecutionData) :
    ∀ (db : Db) (c s : Nat),
      (syncExecutionsList account data db c s).1.total =
        (syncExecutionsList account data db c s).1.created +
          (syncExecutionsList account data db c s).1.skipped_existing := by
  induction data with
  | nil => intro db c s; rfl
  | cons ed rest ih =>
    intro db c s
    rw [syncExecutionsList]
    split
    · exact ih db c s
    · split
      · exact ih _ _ _
      · split
        · exact ih _ _ _
        · exact ih _ _ _

theorem syncOptionEventsList_total_eq (account : String) (data : List OptionEventData) :
    ∀ (db : Db) (c s : Nat),
      (syncOptionEventsList account data db c s).1.total =
        (syncOptionEventsList account data db c s).1.created +
          (syncOptionEventsList account data db c s).1.skipped_existing := by
  induction data with
  | nil => intro db c s; rfl
  | cons ev rest ih =>
    intro db c s
    rw [syncOptionEventsList]
    split
    · exact ih db c s
    · dsimp only
      split
      · exact ih _ _ _
      · exact ih _ _ _

/-- Claim C8, counterexample: the claim "every ingestion sync job returns a
summary of the form `{created, updated|skipped_existing, total}`" fails: the
position sync returns a bare created count (a Python `int`), and the account
snapshot sync returns the created `AccountSnapshot` model object. -/
theorem sync_summary_shape_cex :
    positionsSyncReturn "U1234567" 7 demoClient emptyDb = SyncReturn.count 1 ∧
    isSummaryWithTotal (positionsSyncReturn "U1234567" 7 demoClient emptyDb) = false ∧
    (∃ row, accountSnapshotSyncReturn "U1234567" demoClient emptyDb =
      SyncReturn.snapshotObj row) ∧
    isSummaryWithTotal (accountSnapshotSyncReturn "U1234567" demoClient emptyDb) = false := by
  exact ⟨by decide, by decide, ⟨_, rfl⟩, by decide⟩

/-- Claim C8, amended: the order, execution, and option-event syncs return a
summary of the form `{created, updated|skipped_existing, total}` with `total`
equal to the sum of the other two counters; the position sync instead returns
the bare created count and the account snapshot sync returns the created
snapshot row (or raises when the broker returned no snapshot). -/
theorem sync_summaries_total_sum (account : String) (client : BrokerOutput) (db : Db) :
    isSummaryWithTotal (ordersSyncReturn account client db) = true ∧
    isSummaryWithTotal (executionsSyncReturn account client db) = true ∧
    isSummaryWithTotal (optionEventsSyncReturn account client db) = true ∧
    (∃ n, positionsSyncReturn account 0 client db = SyncReturn.count n) := by
  refine ⟨?_, ?_, ?_, ⟨_, rfl⟩⟩
  · simp [isSummaryWithTotal, ordersSyncReturn, syncOrdersForBrokerAccount,
      syncOrdersList_total_eq]
  · simp [isSummaryWithTotal, executionsSyncReturn, syncExecutionsForBrokerAccount,
      syncExecutionsList_total_eq]
  · simp [isSummaryWithTotal, optionEventsSyncReturn, syncOptionEventsForBrokerAccount,
      syncOptionEventsList_total_eq]

/-- Helper: what `run_strategy_instance` leaves behind when the strategy
entrypoint raises. -/
theorem runStrategyInstance_error_outcome (inst : StrategyInstanceModel)
    (ctx : StrategyContextM) (persist : Bool) (msg : String)
    (h : implEval inst.impl ctx = Except.error msg) :
    runStrategyInstance inst (Except.ok ctx) persist =
      { result := Except.error msg
        run := { status := "error", stats_num_actions := none, error_message := msg
                 error_trace := "Traceback (most recent call last): " ++ msg }
        persisted := [] } := by
  obtain ⟨impl, safety⟩ := inst
  cases impl with
  | classBased runf =>
    simp only [implEval] at h
    simp [runStrategyInstance, h]
  | callableImpl f =>
    simp only [implEval] at h
    simp [runStrategyInstance, h]

/-- Claim C2, counterexample: a batch whose first unit raises aborts the whole
loop instead of isolating the failure: with account A1 returning no snapshot
and account A2 healthy, `sync_all_ibkr_account_snapshots` propagates the
exception and A2 is never synced (processing A2 alone succeeds and creates its
snapshot); likewise a raising first strategy instance makes
`run_all_enabled_strategies` propagate instead of reporting the failure in the
batch summary. -/
theorem batch_failure_isolation_cex :
    syncAllIbkrAccountSnapshots
        [("A1", noSnapClient), ("A2", demoClient)] emptyDb =
      Except.error "No account snapshot data returned for broker account A1" ∧
    (∃ res, syncAllIbkrAccountSnapshots [("A2", demoClient)] emptyDb =
        Except.ok res ∧ res.1 = 1) ∧
    runAllEnabledStrategies
        [(failingInstance, Except.ok emptyCtx), (bigCallableInstance, Except.ok emptyCtx)]
        true =
      Except.error "Synthetic failure" :=
  ⟨rfl, ⟨_, rfl, rfl⟩, rfl⟩

/-- Claim C2, amended: in `run_all_enabled_strategies` and
`sync_all_ibkr_account_snapshots` a failing unit of work propagates its
exception and aborts the remaining units; per-account isolation exists only in
the `sync_ibkr_account_snapshots` management command, which catches each
account's exception and continues with the remaining accounts. -/
theorem batch_failure_aborts_siblings
    (acc : String) (client : BrokerOutput) (rest : List (String × BrokerOutput))
    (db : Db) (inst : StrategyInstanceModel) (ctx : StrategyContextM) (msg : String)
    (restI : List (StrategyInstanceModel × Except String StrategyContextM))
    (dry : Bool)
    (hsnapFail : client.account_snapshots = [])
    (hstratFail : implEval inst.impl ctx = Except.error msg) :
    syncAllIbkrAccountSnapshots ((acc, client) :: rest) db =
      Except.error ("No account snapshot data returned for broker account " ++ acc) ∧
    runAllEnabledStrategies ((inst, Except.ok ctx) :: restI) dry = Except.error msg ∧
    syncSnapshotsCommand ((acc, client) :: rest) db = syncSnapshotsCommand rest db := by
  refine ⟨?_, ?_, ?_⟩
  · rw [syncAllIbkrAccountSnapshots]
    simp [syncAccountSnapshotForBrokerAccount, hsnapFail]
  · rw [runAllEnabledStrategies]
    rw [runStrategyInstance_error_outcome inst ctx (!dry) msg hstratFail]
  · rw [syncSnapshotsCommand]
    simp [syncAccountSnapshotForBrokerAccount, hsnapFail]

/-- Witness for `batch_failure_aborts_siblings` at concrete accounts and a
concrete failing strategy. -/
theorem batch_failure_aborts_siblings_witness :
    syncAllIbkrAccountSnapshots [("A1", noSnapClient), ("A2", demoClient)] emptyDb =
      Except.error ("No account snapshot data returned for broker account " ++ "A1") ∧
    runAllEnabledStrategies
        [(failingInstance, Except.ok emptyCtx), (bigCallableInstance, Except.ok emptyCtx)]
        false =
      Except.error "Synthetic failure" ∧
    syncSnapshotsCommand [("A1", noSnapClient), ("A2", demoClient)] emptyDb =
      syncSnapshotsCommand [("A2", demoClient)] emptyDb :=
  batch_failure_aborts_siblings "A1" noSnapClient [("A2", demoClient)] emptyDb
    failingInstance emptyCtx "Synthetic failure"
    [(bigCallableInstance, Except.ok emptyCtx)] false rfl rfl

/-! ## Order-sync idempotence -/

theorem hasOrderKey_map_applyDefaults (orders : List OrderRow) (eid : Nat)
    (od : OrderData) (con : Option Nat) (acc2 : String) (oid2 : ℤ) :
    hasOrderKey (orders.map (fun r =>
        if r.id == eid then applyOrderDefaults od con r else r)) acc2 oid2 =
      hasOrderKey orders acc2 oid2 := by
  unfold hasOrderKey
  induction orders with
  | nil => rfl
  | cons r rest ih =>
    simp only [List.map_cons, List.any_cons, ih]
    by_cases h : (r.id == eid) = true <;> simp [h, applyOrderDefaults]

theorem findOrderByKey_isSome (orders : List OrderRow) (account : String) (oid : ℤ) :
    (findOrderByKey orders account oid).isSome = hasOrderKey orders account oid := by
  unfold findOrderByKey hasOrderKey
  induction orders with
  | nil => rfl
  | cons r rest ih =>
    simp only [List.find?_cons, List.any_cons]
    by_cases h : (r.broker_account == account && r.ibkr_order_id == oid) = true <;>
      simp [h, ih]

theorem updateOrCreateOrder_created_eq (db : Db) (account : String) (od : OrderData)
    (con : Option Nat) :
    (updateOrCreateOrder db account od con).1 =
      !(hasOrderKey db.orders account od.ibkr_order_id) := by
  unfold updateOrCreateOrder
  rw [← findOrderByKey_isSome]
  cases hf : findOrderByKey db.orders account od.ibkr_order_id <;> simp [hf]

theorem updateOrCreateOrder_length_of_key (db : Db) (account : String)
    (od : OrderData) (con : Option Nat)
    (h : hasOrderKey db.orders account od.ibkr_order_id = true) :
    (updateOrCreateOrder db account od con).2.orders.length = db.orders.length := by
  unfold updateOrCreateOrder
  cases hf : findOrderByKey db.orders account od.ibkr_order_id with
  | some existing => simp
  | none =>
    rw [← findOrderByKey_isSome, hf] at h
    simp at h

theorem updateOrCreateOrder_hasKey_mono (db : Db) (account : String) (od : OrderData)
    (con : Option Nat) (a : String) (o : ℤ)
    (h : hasOrderKey db.orders a o = true) :
    hasOrderKey (updateOrCreateOrder db account od con).2.orders a o = true := by
  unfold updateOrCreateOrder
  cases hf : findOrderByKey db.orders account od.ibkr_order_id with
  | some existing =>
    dsimp only
    rw [hasOrderKey_map_applyDefaults]
    exact h
  | none =>
    dsimp only
    unfold hasOrderKey at h ⊢
    rw [List.any_append]
    simp [h]

theorem updateOrCreateOrder_hasKey_self (db : Db) (account : String) (od : OrderData)
    (con : Option Nat) :
    hasOrderKey (updateOrCreateOrder db account od con).2.orders account
      od.ibkr_order_id = true := by
  unfold updateOrCreateOrder
  cases hf : findOrderByKey db.orders account od.ibkr_order_id with
  | some existing =>
    dsimp only
    rw [hasOrderKey_map_applyDefaults]
    rw [← findOrderByKey_isSome, hf]
    rfl
  | none =>
    dsimp only
    unfold hasOrderKey
    rw [List.any_append]
    simp

theorem syncOrdersList_hasKey_mono (account : String) (data : List OrderData) :
    ∀ (db : Db) (c u : Nat) (a : String) (o : ℤ),
      hasOrderKey db.orders a o = true →
      hasOrderKey (syncOrdersList account data db c u).2.orders a o = true := by
  induction data with
  | nil => intro db c u a o h; exact h
  | cons od rest ih =>
    intro db c u a o h
    rw [syncOrdersList]
    split
    · exact ih db c u a o h
    · dsimp only
      split
      · exact ih _ _ _ a o (updateOrCreateOrder_hasKey_mono db account od _ a o h)
      · exact ih _ _ _ a o (updateOrCreateOrder_hasKey_mono db account od _ a o h)

theorem syncOrdersList_establishes (account : String) (data : List OrderData) :
    ∀ (db : Db) (c u : Nat) (od : OrderData), od ∈ data →
      orderMismatch account od.broker_account_code = false →
      hasOrderKey (syncOrdersList account data db c u).2.orders account
        od.ibkr_order_id = true := by
  induction data with
  | nil => intro db c u od h; exact absurd h (List.not_mem_nil od)
  | cons od0 rest ih =>
    intro db c u od hmem hmis
    rw [syncOrdersList]
    rcases List.mem_cons.mp hmem with heq | hmemr
    · subst heq
      rw [if_neg (by simp [hmis])]
      dsimp only
      split
      · exact syncOrdersList_hasKey_mono account rest _ _ _ _ _
          (updateOrCreateOrder_hasKey_self db account od _)
      · exact syncOrdersList_hasKey_mono account rest _ _ _ _ _
          (updateOrCreateOrder_hasKey_self db account od _)
    · split
      · exact ih db c u od hmemr hmis
      · dsimp only
        split
        · exact ih _ _ _ od hmemr hmis
        · exact ih _ _ _ od hmemr hmis

theorem syncOrdersList_length_stable (account : String) (data : List OrderData) :
    ∀ (db : Db) (c u : Nat),
      (∀ od ∈ data, orderMismatch account od.broker_account_code = false →
        hasOrderKey db.orders account od.ibkr_order_id = true) →
      (syncOrdersList account data db c u).2.orders.length = db.orders.length := by
  induction data with
  | nil => intro db c u _; rfl
  | cons od rest ih =>
    intro db c u h
    rw [syncOrdersList]
    split
    · exact ih db c u (fun od2 h2 hm => h od2 (List.mem_cons_of_mem od h2) hm)
    · dsimp only
      rename_i hmis
      have hkey : hasOrderKey db.orders account od.ibkr_order_id = true :=
        h od (List.mem_cons_self od rest) (by simpa using hmis)
      split
      · rename_i hcreated
        rw [updateOrCreateOrder_created_eq, hkey] at hcreated
        simp at hcreated
      · rw [ih _ _ _ (fun od2 h2 hm =>
          updateOrCreateOrder_hasKey_mono db account od _ account od2.ibkr_order_id
            (h od2 (List.mem_cons_of_mem od h2) hm))]
        exact updateOrCreateOrder_length_of_key db account od _ hkey

/-- Re-running the order sync with identical broker output creates no
additional order rows. -/
theorem syncOrders_second_run_stable (account : String) (client : BrokerOutput)
    (db : Db) :
    (syncOrdersForBrokerAccount account client
        (syncOrdersForBrokerAccount account client db).2).2.orders.length =
      (syncOrdersForBrokerAccount account client db).2.orders.length := by
  unfold syncOrdersForBrokerAccount
  apply syncOrdersList_length_stable
  intro od hmem hmis
  exact syncOrdersList_establishes account client.open_orders db 0 0 od hmem hmis

/-! ## Execution-sync idempotence -/

theorem syncExecutionsList_orders_eq (account : String) (data : List ExecutionData) :
    ∀ (db : Db) (c s : Nat),
      (syncExecutionsList account data db c s).2.orders = db.orders := by
  induction data with
  | nil => intro db c s; rfl
  | cons ed rest ih =>
    intro db c s
    rw [syncExecutionsList]
    split
    · exact ih _ _ _
    · split
      · exact ih _ _ _
      · split
        · exact ih _ _ _
        · exact ih _ _ _

theorem syncExecutionsList_execId_mono (account : String) (data : List ExecutionData) :
    ∀ (db : Db) (c s : Nat) (x : String),
      execIdExists db.executions x = true →
      execIdExists (syncExecutionsList account data db c s).2.executions x = true := by
  induction data with
  | nil => intro db c s x h; exact h
  | cons ed rest ih =>
    intro db c s x h
    rw [syncExecutionsList]
    split
    · exact ih _ _ _ x h
    · split
      · exact ih _ _ _ x h
      · split
        · exact ih _ _ _ x h
        · apply ih
          unfold execIdExists at h ⊢
          rw [List.any_append]
          simp [h]

theorem syncExecutionsList_establishes (account : String) (data : List ExecutionData) :
    ∀ (db : Db) (c s : Nat) (ed : ExecutionData), ed ∈ data →
      orderMismatch account ed.broker_account_code = false →
      execIdExists (syncExecutionsList account data db c s).2.executions
          ed.ibkr_exec_id = true ∨
        resolveOrderForExecution db.orders account ed.ibkr_order_id = none := by
  induction data with
  | nil => intro db c s ed h; exact absurd h (List.not_mem_nil ed)
  | cons ed0 rest ih =>
    intro db c s ed hmem hmis
    rw [syncExecutionsList]
    rcases List.mem_cons.mp hmem with heq | hmemr
    · subst heq
      rw [if_neg (by simp [hmis])]
      split
      · rename_i hex
        exact Or.inl (syncExecutionsList_execId_mono account rest db c (s + 1)
          ed.ibkr_exec_id hex)
      · split
        · rename_i hres
          exact Or.inr hres
        · rename_i hres
          refine Or.inl (syncExecutionsList_execId_mono account rest _ _ _ _ ?_)
          unfold execIdExists
          rw [List.any_append]
          simp
    · split
      · exact ih _ _ _ ed hmemr hmis
      · split
        · exact ih _ _ _ ed hmemr hmis
        · split
          · exact ih _ _ _ ed hmemr hmis
          · rename_i order_row hres
            rcases ih _ _ _ ed hmemr hmis with h | h
            · exact Or.inl h
            · dsimp only at h
              exact Or.inr h

theorem syncExecutionsList_stable (account : String) (data : List ExecutionData) :
    ∀ (db : Db) (c s : Nat),
      (∀ ed ∈ data, orderMismatch account ed.broker_account_code = false →
        execIdExists db.executions ed.ibkr_exec_id = true ∨
          resolveOrderForExecution db.orders account ed.ibkr_order_id = none) →
      (syncExecutionsList account data db c s).2 = db := by
  induction data with
  | nil => intro db c s _; rfl
  | cons ed rest ih =>
    intro db c s h
    rw [syncExecutionsList]
    split
    · exact ih _ _ _ (fun ed2 h2 hm => h ed2 (List.mem_cons_of_mem ed h2) hm)
    · split
      · exact ih _ _ _ (fun ed2 h2 hm => h ed2 (List.mem_cons_of_mem ed h2) hm)
      · rename_i hmis hex
        rcases h ed (List.mem_cons_self ed rest) (by simpa using hmis) with hx | hr
        · exact absurd hx (by simpa using hex)
        · split
          · exact ih _ _ _ (fun ed2 h2 hm => h ed2 (List.mem_cons_of_mem ed h2) hm)
          · rename_i order_row hres
            rw [hr] at hres
            exact Option.noConfusion hres

/-- Re-running the execution sync with identical broker output leaves the
store exactly unchanged. -/
theorem syncExecutions_second_run_stable (account : String) (client : BrokerOutput)
    (db : Db) :
    (syncExecutionsForBrokerAccount account client
        (syncExecutionsForBrokerAccount account client db).2).2 =
      (syncExecutionsForBrokerAccount account client db).2 := by
  unfold syncExecutionsForBrokerAccount
  apply syncExecutionsList_stable
  intro ed hmem hmis
  rcases syncExecutionsList_establishes account client.executions db 0 0 ed hmem hmis
    with h | h
  · exact Or.inl h
  · refine Or.inr ?_
    rw [syncExecutionsList_orders_eq]
    exact h

/-! ## Option-event-sync idempotence -/

theorem syncOptionEventsList_contracts_eq (account : String)
    (data : List OptionEventData) :
    ∀ (db : Db) (c s : Nat),
      (syncOptionEventsList account data db c s).2.contracts = db.contracts := by
  induction data with
  | nil => intro db c s; rfl
  | cons ev rest ih =>
    intro db c s
    rw [syncOptionEventsList]
    split
    · exact ih _ _ _
    · dsimp only
      split
      · exact ih _ _ _
      · exact ih _ _ _

theorem syncOptionEventsList_key_mono (account : String) (data : List OptionEventData) :
    ∀ (db : Db) (c s : Nat) (a : String) (con : Option Nat) (ty : String) (ts : ℤ)
      (q : ℚ),
      optionEventExists db.optionEvents a con ty ts q = true →
      optionEventExists (syncOptionEventsList account data db c s).2.optionEvents
        a con ty ts q = true := by
  induction data with
  | nil => intro db c s a con ty ts q h; exact h
  | cons ev rest ih =>
    intro db c s a con ty ts q h
    rw [syncOptionEventsList]
    split
    · exact ih _ _ _ _ _ _ _ _ h
    · dsimp only
      split
      · exact ih _ _ _ _ _ _ _ _ h
      · apply ih
        unfold optionEventExists at h ⊢
        rw [List.any_append]
        simp [h]

theorem syncOptionEventsList_establishes (account : String)
    (data : List OptionEventData) :
    ∀ (db : Db) (c s : Nat) (ev : OptionEventData), ev ∈ data →
      orderMismatch account ev.broker_account_code = false →
      optionEventExists (syncOptionEventsList account data db c s).2.optionEvents
        account (resolveContractRowId db.contracts ev.con_id) ev.event_type
        ev.event_ts ev.qty = true := by
  induction data with
  | nil => intro db c s ev h; exact absurd h (List.not_mem_nil ev)
  | cons ev0 rest ih =>
    intro db c s ev hmem hmis
    rw [syncOptionEventsList]
    rcases List.mem_cons.mp hmem with heq | hmemr
    · subst heq
      rw [if_neg (by simp [hmis])]
      dsimp only
      split
      · rename_i hex
        exact syncOptionEventsList_key_mono account rest _ _ _ _ _ _ _ _ hex
      · apply syncOptionEventsList_key_mono
        unfold optionEventExists
        rw [List.any_append]
        simp
    · split
      · exact ih _ _ _ ev hmemr hmis
      · dsimp only
        split
        · exact ih _ _ _ ev hmemr hmis
        · exact ih _ _ _ ev hmemr hmis

theorem syncOptionEventsList_stable (account : String) (data : List OptionEventData) :
    ∀ (db : Db) (c s : Nat),
      (∀ ev ∈ data, orderMismatch account ev.broker_account_code = false →
        optionEventExists db.optionEvents account
          (resolveContractRowId db.contracts ev.con_id) ev.event_type ev.event_ts
          ev.qty = true) →
      (syncOptionEventsList account data db c s).2 = db := by
  induction data with
  | nil => intro db c s _; rfl
  | cons ev rest ih =>
    intro db c s h
    rw [syncOptionEventsList]
    split
    · exact ih _ _ _ (fun ev2 h2 hm => h ev2 (List.mem_cons_of_mem ev h2) hm)
    · rename_i hmis
      dsimp only
      split
      · exact ih _ _ _ (fun ev2 h2 hm => h ev2 (List.mem_cons_of_mem ev h2) hm)
      · rename_i hex
        exact absurd (h ev (List.mem_cons_self ev rest) (by simpa using hmis))
          (by simpa using hex)

/-- Re-running the option-event sync with identical broker output leaves the
store exactly unchanged. -/
theorem syncOptionEvents_second_run_stable (account : String) (client : BrokerOutput)
    (db : Db) :
    (syncOptionEventsForBrokerAccount account client
        (syncOptionEventsForBrokerAccount account client db).2).2 =
      (syncOptionEventsForBrokerAccount account client db).2 := by
  unfold syncOptionEventsForBrokerAccount
  apply syncOptionEventsList_stable
  intro ev hmem hmis
  rw [syncOptionEventsList_contracts_eq]
  exact syncOptionEventsList_establishes account client.option_events db 0 0 ev hmem hmis

/-! ## Position-sync: instrument/contract get-or-create laws -/

theorem findInstrument_isSome (db : Db) (s e a c : String) :
    (findInstrument db s e a c).isSome = hasInstrumentKey db.instruments s e a c := by
  unfold findInstrument hasInstrumentKey
  induction db.instruments with
  | nil => rfl
  | cons r rest ih =>
    simp only [List.find?_cons, List.any_cons]
    by_cases h : (r.symbol == s && r.exchange == e && r.asset_type == a &&
      r.currency == c) = true <;> simp [h, ih]

theorem findContractByConId_isSome (contracts : List IbkrContractRow) (cid : ℤ) :
    (findContractByConId contracts cid).isSome = hasContractCon contracts cid := by
  unfold findContractByConId hasContractCon
  induction contracts with
  | nil => rfl
  | cons r rest ih =>
    simp only [List.find?_cons, List.any_cons]
    by_cases h : (r.con_id == cid) = true <;> simp [h, ih]

theorem hasContractCon_map_realign (contracts : List IbkrContractRow) (eid iid : Nat)
    (cid : ℤ) :
    hasContractCon (contracts.map (fun r =>
        if r.id == eid then { r with instrument_id := iid } else r)) cid =
      hasContractCon contracts cid := by
  unfold hasContractCon
  induction contracts with
  | nil => rfl
  | cons r rest ih =>
    simp only [List.map_cons, List.any_cons, ih]
    by_cases h : (r.id == eid) = true <;> simp [h]


theorem getOrCreateInstrument_db_of_key (db : Db) (pd : PositionData)
    (h : hasInstrumentKey db.instruments pd.symbol (pd.exchange.getD "")
      pd.asset_type pd.currency = true) :
    (getOrCreateInstrument db pd).2 = db := by
  unfold getOrCreateInstrument
  cases hfi : findInstrument db pd.symbol (pd.exchange.getD "") pd.asset_type
      pd.currency with
  | some r => rfl
  | none =>
    rw [← findInstrument_isSome, hfi] at h
    simp at h

theorem getOrCreateInstrument_other_tables (db : Db) (pd : PositionData) :
    (getOrCreateInstrument db pd).2.positions = db.positions ∧
    (getOrCreateInstrument db pd).2.contracts = db.contracts := by
  unfold getOrCreateInstrument
  cases hfi : findInstrument db pd.symbol (pd.exchange.getD "") pd.asset_type
      pd.currency with
  | some r => exact ⟨rfl, rfl⟩
  | none => exact ⟨rfl, rfl⟩

theorem getOrCreateInstrument_establishes (db : Db) (pd : PositionData) :
    hasInstrumentKey (getOrCreateInstrument db pd).2.instruments pd.symbol
      (pd.exchange.getD "") pd.asset_type pd.currency = true := by
  unfold getOrCreateInstrument
  cases hfi : findInstrument db pd.symbol (pd.exchange.getD "") pd.asset_type
      pd.currency with
  | some r =>
    rw [← findInstrument_isSome, hfi]
    rfl
  | none =>
    dsimp only
    unfold hasInstrumentKey
    rw [List.any_append]
    simp

theorem getOrCreateInstrument_key_mono (db : Db) (pd : PositionData)
    (s e a c : String) (h : hasInstrumentKey db.instruments s e a c = true) :
    hasInstrumentKey (getOrCreateInstrument db pd).2.instruments s e a c = true := by
  unfold getOrCreateInstrument
  cases hfi : findInstrument db pd.symbol (pd.exchange.getD "") pd.asset_type
      pd.currency with
  | some r => exact h
  | none =>
    dsimp only
    unfold hasInstrumentKey at h ⊢
    rw [List.any_append]
    simp [h]

theorem getOrCreateContractFor_other_tables (db : Db) (pd : PositionData)
    (instrument : InstrumentRow) :
    (getOrCreateContractFor db pd instrument).2.positions = db.positions ∧
    (getOrCreateContractFor db pd instrument).2.instruments = db.instruments := by
  unfold getOrCreateContractFor
  cases pd.con_id with
  | none => exact ⟨rfl, rfl⟩
  | some cid =>
    cases hfc : findContractByConId db.contracts cid with
    | some existing =>
      dsimp only
      by_cases hrl : (existing.instrument_id != instrument.id) = true <;>
        simp [hfc, hrl]
    | none => simp [hfc]

theorem getOrCreateContractFor_length_of_key (db : Db) (pd : PositionData)
    (instrument : InstrumentRow)
    (h : ∀ cid, pd.con_id = some cid → hasContractCon db.contracts cid = true) :
    (getOrCreateContractFor db pd instrument).2.contracts.length =
      db.contracts.length := by
  unfold getOrCreateContractFor
  cases hcid : pd.con_id with
  | none => rfl
  | some cid =>
    cases hfc : findContractByConId db.contracts cid with
    | some existing =>
      simp only [hfc]
      by_cases hrl : (existing.instrument_id != instrument.id) = true <;> simp [hrl]
    | none =>
      have := h cid hcid
      rw [← findContractByConId_isSome, hfc] at this
      simp at this

theorem getOrCreateContractFor_establishes (db : Db) (pd : PositionData)
    (instrument : InstrumentRow) (cid : ℤ) (hcid : pd.con_id = some cid) :
    hasContractCon (getOrCreateContractFor db pd instrument).2.contracts cid = true := by
  unfold getOrCreateContractFor
  rw [hcid]
  cases hfc : findContractByConId db.contracts cid with
  | some existing =>
    have hkey : hasContractCon db.contracts cid = true := by
      rw [← findContractByConId_isSome, hfc]; rfl
    simp only [hfc]
    by_cases hrl : (existing.instrument_id != instrument.id) = true
    · rw [if_pos hrl]
      dsimp only
      rw [hasContractCon_map_realign]
      exact hkey
    · rw [if_neg hrl]
      exact hkey
  | none =>
    unfold hasContractCon
    simp only [hfc]
    rw [List.any_append]
    simp

theorem getOrCreateContractFor_con_mono (db : Db) (pd : PositionData)
    (instrument : InstrumentRow) (x : ℤ)
    (h : hasContractCon db.contracts x = true) :
    hasContractCon (getOrCreateContractFor db pd instrument).2.contracts x = true := by
  unfold getOrCreateContractFor
  cases pd.con_id with
  | none => exact h
  | some cid =>
    cases hfc : findContractByConId db.contracts cid with
    | some existing =>
      simp only [hfc]
      by_cases hrl : (existing.instrument_id != instrument.id) = true
      · rw [if_pos hrl]
        dsimp only
        rw [hasContractCon_map_realign]
        exact h
      · rw [if_neg hrl]
        exact h
    | none =>
      simp only [hfc]
      unfold hasContractCon at h ⊢
      rw [List.any_append]
      simp [h]

theorem syncOnePosition_positions_length (account : String) (pid : Nat) (db : Db)
    (pd : PositionData) :
    (syncOnePosition account pid db pd).positions.length =
      db.positions.length + 1 := by
  unfold syncOnePosition getOrCreateInstrumentAndContract
  dsimp only
  rw [List.length_append,
    (getOrCreateContractFor_other_tables (getOrCreateInstrument db pd).2 pd
      (getOrCreateInstrument db pd).1).1,
    (getOrCreateInstrument_other_tables db pd).1]
  rfl

theorem syncOnePosition_instr_establish (account : String) (pid : Nat) (db : Db)
    (pd : PositionData) :
    hasInstrumentKey (syncOnePosition account pid db pd).instruments pd.symbol
      (pd.exchange.getD "") pd.asset_type pd.currency = true := by
  unfold syncOnePosition getOrCreateInstrumentAndContract
  dsimp only
  rw [(getOrCreateContractFor_other_tables (getOrCreateInstrument db pd).2 pd
    (getOrCreateInstrument db pd).1).2]
  exact getOrCreateInstrument_establishes db pd

theorem syncOnePosition_instr_mono (account : String) (pid : Nat) (db : Db)
    (pd : PositionData) (s e a c : String)
    (h : hasInstrumentKey db.instruments s e a c = true) :
    hasInstrumentKey (syncOnePosition account pid db pd).instruments s e a c = true := by
  unfold syncOnePosition getOrCreateInstrumentAndContract
  dsimp only
  rw [(getOrCreateContractFor_other_tables (getOrCreateInstrument db pd).2 pd
    (getOrCreateInstrument db pd).1).2]
  exact getOrCreateInstrument_key_mono db pd s e a c h

theorem syncOnePosition_con_establish (account : String) (pid : Nat) (db : Db)
    (pd : PositionData) (cid : ℤ) (hcid : pd.con_id = some cid) :
    hasContractCon (syncOnePosition account pid db pd).contracts cid = true := by
  unfold syncOnePosition getOrCreateInstrumentAndContract
  dsimp only
  exact getOrCreateContractFor_establishes (getOrCreateInstrument db pd).2 pd
    (getOrCreateInstrument db pd).1 cid hcid

theorem syncOnePosition_con_mono (account : String) (pid : Nat) (db : Db)
    (pd : PositionData) (x : ℤ) (h : hasContractCon db.contracts x = true) :
    hasContractCon (syncOnePosition account pid db pd).contracts x = true := by
  unfold syncOnePosition getOrCreateInstrumentAndContract
  dsimp only
  apply getOrCreateContractFor_con_mono
  rw [(getOrCreateInstrument_other_tables db pd).2]
  exact h

theorem syncOnePosition_lengths_stable (account : String) (pid : Nat) (db : Db)
    (pd : PositionData)
    (hinstr : hasInstrumentKey db.instruments pd.symbol (pd.exchange.getD "")
      pd.asset_type pd.currency = true)
    (hcon : ∀ cid, pd.con_id = some cid → hasContractCon db.contracts cid = true) :
    (syncOnePosition account pid db pd).instruments.length =
        db.instruments.length ∧
    (syncOnePosition account pid db pd).contracts.length = db.contracts.length := by
  unfold syncOnePosition getOrCreateInstrumentAndContract
  dsimp only
  rw [getOrCreateInstrument_db_of_key db pd hinstr]
  constructor
  · rw [(getOrCreateContractFor_other_tables db pd (getOrCreateInstrument db pd).1).2]
  · exact getOrCreateContractFor_length_of_key db pd (getOrCreateInstrument db pd).1 hcon

theorem syncPositionsList_counts (account : String) (pid : Nat)
    (data : List PositionData) :
    ∀ (db : Db) (n : Nat),
      (syncPositionsList account pid data db n).1 = n + data.length ∧
      (syncPositionsList account pid data db n).2.positions.length =
        db.positions.length + data.length := by
  induction data with
  | nil => intro db n; exact ⟨rfl, rfl⟩
  | cons pd rest ih =>
    intro db n
    rw [syncPositionsList]
    refine ⟨?_, ?_⟩
    · rw [(ih _ _).1]
      simp only [List.length_cons]
      omega
    · rw [(ih _ _).2, syncOnePosition_positions_length]
      simp only [List.length_cons]
      omega

theorem syncPositionsList_instr_mono (account : String) (pid : Nat)
    (data : List PositionData) :
    ∀ (db : Db) (n : Nat) (s e a c : String),
      hasInstrumentKey db.instruments s e a c = true →
      hasInstrumentKey (syncPositionsList account pid data db n).2.instruments
        s e a c = true := by
  induction data with
  | nil => intro db n s e a c h; exact h
  | cons pd rest ih =>
    intro db n s e a c h
    rw [syncPositionsList]
    exact ih _ _ s e a c (syncOnePosition_instr_mono account pid db pd s e a c h)

theorem syncPositionsList_con_mono (account : String) (pid : Nat)
    (data : List PositionData) :
    ∀ (db : Db) (n : Nat) (x : ℤ),
      hasContractCon db.contracts x = true →
      hasContractCon (syncPositionsList account pid data db n).2.contracts x = true := by
  induction data with
  | nil => intro db n x h; exact h
  | cons pd rest ih =>
    intro db n x h
    rw [syncPositionsList]
    exact ih _ _ x (syncOnePosition_con_mono account pid db pd x h)

theorem syncPositionsList_establishes (account : String) (pid : Nat)
    (data : List PositionData) :
    ∀ (db : Db) (n : Nat) (pd : PositionData), pd ∈ data →
      hasInstrumentKey (syncPositionsList account pid data db n).2.instruments
        pd.symbol (pd.exchange.getD "") pd.asset_type pd.currency = true ∧
      (∀ cid, pd.con_id = some cid →
        hasContractCon (syncPositionsList account pid data db n).2.contracts
          cid = true) := by
  induction data with
  | nil => intro db n pd h; exact absurd h (List.not_mem_nil pd)
  | cons pd0 rest ih =>
    intro db n pd hmem
    rw [syncPositionsList]
    rcases List.mem_cons.mp hmem with heq | hmemr
    · subst heq
      constructor
      · exact syncPositionsList_instr_mono account pid rest _ _ _ _ _ _
          (syncOnePosition_instr_establish account pid db pd)
      · intro cid hcid
        exact syncPositionsList_con_mono account pid rest _ _ cid
          (syncOnePosition_con_establish account pid db pd cid hcid)
    · exact ih _ _ pd hmemr

theorem syncPositionsList_lengths_stable (account : String) (pid : Nat)
    (data : List PositionData) :
    ∀ (db : Db) (n : Nat),
      (∀ pd ∈ data,
        hasInstrumentKey db.instruments pd.symbol (pd.exchange.getD "")
          pd.asset_type pd.currency = true ∧
        (∀ cid, pd.con_id = some cid → hasContractCon db.contracts cid = true)) →
      (syncPositionsList account pid data db n).2.instruments.length =
          db.instruments.length ∧
      (syncPositionsList account pid data db n).2.contracts.length =
        db.contracts.length := by
  induction data with
  | nil => intro db n _; exact ⟨rfl, rfl⟩
  | cons pd rest ih =>
    intro db n h
    rw [syncPositionsList]
    have hhead := h pd (List.mem_cons_self pd rest)
    have hstable := syncOnePosition_lengths_stable account pid db pd hhead.1 hhead.2
    have htail := ih (syncOnePosition account pid db pd) (n + 1) ?_
    · exact ⟨by rw [htail.1, hstable.1], by rw [htail.2, hstable.2]⟩
    · intro pd2 h2
      refine ⟨?_, ?_⟩
      · exact syncOnePosition_instr_mono account pid db pd _ _ _ _
          (h pd2 (List.mem_cons_of_mem pd h2)).1
      · intro cid hcid
        exact syncOnePosition_con_mono account pid db pd cid
          ((h pd2 (List.mem_cons_of_mem pd h2)).2 cid hcid)

/-- Re-running the position sync with identical broker output appends one
position row per datum again but creates no additional instrument or contract
rows. -/
theorem syncPositions_second_run (account : String) (pid : Nat)
    (client : BrokerOutput) (db : Db) :
    (syncPositionsForBrokerAccount account pid client db).2.positions.length =
        db.positions.length + client.positions.length ∧
    (syncPositionsForBrokerAccount account pid client
        (syncPositionsForBrokerAccount account pid client db).2).2.positions.length =
      (syncPositionsForBrokerAccount account pid client db).2.positions.length +
        client.positions.length ∧
    (syncPositionsForBrokerAccount account pid client
        (syncPositionsForBrokerAccount account pid client db).2).2.instruments.length =
      (syncPositionsForBrokerAccount account pid client db).2.instruments.length ∧
    (syncPositionsForBrokerAccount account pid client
        (syncPositionsForBrokerAccount account pid client db).2).2.contracts.length =
      (syncPositionsForBrokerAccount account pid client db).2.contracts.length := by
  unfold syncPositionsForBrokerAccount
  refine ⟨(syncPositionsList_counts account pid client.positions db 0).2,
    (syncPositionsList_counts account pid client.positions _ 0).2, ?_⟩
  have hstable := syncPositionsList_lengths_stable account pid client.positions
    (syncPositionsList account pid client.positions db 0).2 0 ?_
  · exact hstable
  · intro pd hmem
    exact syncPositionsList_establishes account pid client.positions db 0 pd hmem

theorem syncAccountSnapshot_appends_one (account : String) (client : BrokerOutput)
    (db : Db) (h : client.account_snapshots ≠ []) :
    ∃ row db1, syncAccountSnapshotForBrokerAccount account client db =
      Except.ok (row, db1) ∧ db1.snapshots.length = db.snapshots.length + 1 := by
  unfold syncAccountSnapshotForBrokerAccount
  cases hcs : client.account_snapshots with
  | nil => exact absurd hcs h
  | cons d rest =>
    refine ⟨_, _, rfl, ?_⟩
    simp

/-- Claim C1: Re-running any ingestion sync with identical broker output is
idempotent as specified: the order sync creates zero additional rows on the
second run, the execution and option-event syncs leave the store exactly
unchanged, the position sync appends one position row per datum on every run
but creates no second instrument or contract row, and the snapshot sync
appends exactly one snapshot row per run; concretely, the AAPL/265598 datum
yields one instrument, one contract and one position row on the first run and
only a second position row on the second. -/
theorem ingestion_sync_idempotence (account : String) (pid : Nat)
    (client : BrokerOutput) (db : Db) (hsnap : client.account_snapshots ≠ []) :
    (syncOrdersForBrokerAccount account client
        (syncOrdersForBrokerAccount account client db).2).2.orders.length =
      (syncOrdersForBrokerAccount account client db).2.orders.length ∧
    (syncExecutionsForBrokerAccount account client
        (syncExecutionsForBrokerAccount account client db).2).2 =
      (syncExecutionsForBrokerAccount account client db).2 ∧
    (syncOptionEventsForBrokerAccount account client
        (syncOptionEventsForBrokerAccount account client db).2).2 =
      (syncOptionEventsForBrokerAccount account client db).2 ∧
    ((syncPositionsForBrokerAccount account pid client db).2.positions.length =
        db.positions.length + client.positions.length ∧
      (syncPositionsForBrokerAccount account pid client
          (syncPositionsForBrokerAccount account pid client db).2).2.positions.length =
        (syncPositionsForBrokerAccount account pid client db).2.positions.length +
          client.positions.length ∧
      (syncPositionsForBrokerAccount account pid client
          (syncPositionsForBrokerAccount account pid client db).2).2.instruments.length =
        (syncPositionsForBrokerAccount account pid client db).2.instruments.length ∧
      (syncPositionsForBrokerAccount account pid client
          (syncPositionsForBrokerAccount account pid client db).2).2.contracts.length =
        (syncPositionsForBrokerAccount account pid client db).2.contracts.length) ∧
    (∃ row db1, syncAccountSnapshotForBrokerAccount account client db =
      Except.ok (row, db1) ∧ db1.snapshots.length = db.snapshots.length + 1) ∧
    ((syncPositionsForBrokerAccount "U1234567" 7 demoClient emptyDb).1 = 1 ∧
      (syncPositionsForBrokerAccount "U1234567" 7 demoClient
          emptyDb).2.instruments.length = 1 ∧
      (syncPositionsForBrokerAccount "U1234567" 7 demoClient
          emptyDb).2.contracts.length = 1 ∧
      (syncPositionsForBrokerAccount "U1234567" 7 demoClient
          emptyDb).2.positions.length = 1 ∧
      (syncPositionsForBrokerAccount "U1234567" 7 demoClient
          (syncPositionsForBrokerAccount "U1234567" 7 demoClient
            emptyDb).2).2.instruments.length = 1 ∧
      (syncPositionsForBrokerAccount "U1234567" 7 demoClient
          (syncPositionsForBrokerAccount "U1234567" 7 demoClient
            emptyDb).2).2.contracts.length = 1 ∧
      (syncPositionsForBrokerAccount "U1234567" 7 demoClient
          (syncPositionsForBrokerAccount "U1234567" 7 demoClient
            emptyDb).2).2.positions.length = 2) :=
  ⟨syncOrders_second_run_stable account client db,
   syncExecutions_second_run_stable account client db,
   syncOptionEvents_second_run_stable account client db,
   syncPositions_second_run account pid client db,
   syncAccountSnapshot_appends_one account client db hsnap,
   by decide⟩

/-- Witness for `ingestion_sync_idempotence` at the demo broker output. -/
theorem ingestion_sync_idempotence_witness :
    (syncOrdersForBrokerAccount "U1234567" demoClient
        (syncOrdersForBrokerAccount "U1234567" demoClient emptyDb).2).2.orders.length =
      (syncOrdersForBrokerAccount "U1234567" demoClient emptyDb).2.orders.length ∧
    (∃ row db1, syncAccountSnapshotForBrokerAccount "U1234567" demoClient emptyDb =
      Except.ok (row, db1) ∧ db1.snapshots.length = emptyDb.snapshots.length + 1) :=
  ⟨(ingestion_sync_idempotence "U1234567" 7 demoClient emptyDb (by decide)).1,
   (ingestion_sync_idempotence "U1234567" 7 demoClient emptyDb (by decide)).2.2.2.2.1⟩

end OptionsTrader
